import Mathlib

/-!
# Verification of the grocery-delivery planning engine

A shallow embedding of the two-phase planning heuristic:
business objects (`Truck`, order aggregates), the read-only state view,
the feasibility gates, the best-fit reefer/dry placers, the packing
policy, the item/order rankers, the day tracker, and the Phase-2
orchestrator.  Python floats are modelled as exact rationals (`ℚ`);
Python dicts/sets are modelled as association lists / lists (a list that
models a `set` carries the set's iteration order, which Python leaves
unspecified).  A Python method that raises before mutating is modelled
as `Except String`, so an erroring call observes and changes nothing.
-/

namespace Grocery

/-- Truck types, from `business_objects/common.py` (`TruckType`). -/
inductive TruckType where
  | REEFER
  | DRY
deriving DecidableEq, Repr

/-- `str(TruckType.X)` in Python yields the enum's qualified name
(`"TruckType.REEFER"` / `"TruckType.DRY"`), not the value string. -/
def pyEnumStr : TruckType → String
  | .REEFER => "TruckType.REEFER"
  | .DRY => "TruckType.DRY"

/-- Fragility classes, from `business_objects/common.py`. -/
inductive Fragility where
  | REGULAR
  | DELICATE
  | FRAGILE
deriving DecidableEq, Repr

/-- Separation tags, from `business_objects/common.py`. -/
inductive SeparationTag where
  | FOOD
  | NON_FOOD
  | ALLERGEN
  | HAZARDOUS
deriving DecidableEq, Repr

/-- Vehicle resource, from `business_objects/truck.py` (static spec plus
the runtime ledger fields mutated by planners). -/
structure Truck where
  truck_id : String
  type : TruckType
  total_capacity_m3 : ℚ
  cold_capacity_m3 : ℚ
  weight_limit_kg : ℚ
  fixed_cost : ℚ
  min_utilization : ℚ
  reserve_fraction : ℚ
  assigned_orders : List String := []
  used_volume_m3 : ℚ := 0
  used_cold_m3 : ℚ := 0
  used_weight_kg : ℚ := 0
  departure_time : Option String := none
  cooler_capacity_m3 : ℚ := 0
  used_cooler_m3 : ℚ := 0
deriving DecidableEq, Repr

/-- `Truck.residual_volume_m3`: remaining usable volume after the
reserve is honoured. -/
def Truck.residual_volume_m3 (t : Truck) : ℚ :=
  let available := t.total_capacity_m3 * (1 - max 0 t.reserve_fraction)
  max 0 (available - t.used_volume_m3)

/-- `Truck.residual_cold_m3`: zero on DRY trucks. -/
def Truck.residual_cold_m3 (t : Truck) : ℚ :=
  if t.type = TruckType.DRY then 0
  else max 0 (t.cold_capacity_m3 - t.used_cold_m3)

/-- `Truck.residual_weight_kg`. -/
def Truck.residual_weight_kg (t : Truck) : ℚ :=
  max 0 (t.weight_limit_kg - t.used_weight_kg)

/-- Catalogue item, from `business_objects/item.py`. -/
structure Item where
  item_id : String
  name : String
  category_cold : Bool
  unit_weight_kg : ℚ
  unit_volume_m3 : ℚ
  fragility : Fragility
  max_stack_load_kg : ℚ
  is_liquid : Bool
  upright_only : Bool
  separation_tag : SeparationTag
  padding_factor : ℚ := 0
deriving DecidableEq, Repr

/-- `Item.effective_unit_volume`: volume inflated by padding. -/
def Item.effective_unit_volume (it : Item) : ℚ :=
  it.unit_volume_m3 * (1 + max 0 it.padding_factor)

/-- The order feature view a placer reads through
`StateView.order_features`.  `SimpleStateView` (`placers/state_view.py`)
populates only the first three fields; the remaining attributes are read
by callers through `getattr`/`hasattr` with defaults, which we model as
`Option` fields (`none` = attribute absent). -/
structure OrderFeat where
  effective_volume_m3 : ℚ
  cold_volume_m3 : ℚ
  weight_kg : ℚ
  cold_fraction : Option ℚ := none
  vip : Option Bool := none
  volume_m3 : Option ℚ := none
deriving DecidableEq, Repr

/-- Residual triple returned by `SimpleStateView.truck_residuals`
(`TruckResiduals` in `placers/state_view.py`); it exposes no cooler
fields. -/
structure TruckResiduals where
  remaining_volume_m3 : ℚ
  remaining_cold_m3 : ℚ
  remaining_weight_kg : ℚ
deriving DecidableEq, Repr

/-- Ranked line consumed by the packing policy (`ItemRank` in
`selectors/item_selector_priority.py`).  `features` is a Python
`Dict[str, float]`; the packing policy also reads string-valued keys
through `.get`, so values are tagged. -/
inductive FeatVal where
  | num (q : ℚ)
  | str (s : String)
deriving DecidableEq, Repr

structure ItemRank where
  item_id : String
  qty : Int
  features : List (String × FeatVal)
deriving DecidableEq, Repr

/-- Python `str.lower()` (the strings the engine lowers are ASCII). -/
def pyLower (s : String) : String := ⟨s.data.map Char.toLower⟩

/-- `features.get(key, default)` for numeric reads (`float(...)` in the
source; the keys so read are only ever bound to numbers). -/
def featNum (fs : List (String × FeatVal)) (key : String) (dflt : ℚ) : ℚ :=
  match fs.lookup key with
  | some (.num q) => q
  | some (.str _) => dflt
  | none => dflt

/-- `features.get(key, default)` for string reads (`str(...)`). -/
def featStr (fs : List (String × FeatVal)) (key : String) (dflt : String) : String :=
  match fs.lookup key with
  | some (.str s) => s
  | some (.num _) => dflt
  | none => dflt

/-- The planner state backing `SimpleStateView`
(`placers/state_view.py`): the depot's trucks (insertion order of the
`available_trucks` dict), the ids of currently open trucks (iteration
order of the `_open` Python set, which is unspecified), the order
aggregates, and the pre-sorted item sequences. -/
structure PlannerState where
  trucks : List (String × Truck)
  openIds : List String
  orders : List (String × OrderFeat)
  sortedItems : List (String × List ItemRank) := []
deriving Repr

/-- `SimpleStateView.order_features` (raises `KeyError` on a missing
order id; theorems only consider states where the lookup succeeds). -/
def PlannerState.order_features (s : PlannerState) (oid : String) : OrderFeat :=
  (s.orders.lookup oid).getD ⟨0, 0, 0, none, none, none⟩

/-- `SimpleStateView._type_str`: "reefer"/"dry" from the truck's type. -/
def PlannerState.type_str (s : PlannerState) (tid : String) : String :=
  match s.trucks.lookup tid with
  | some t => if t.type = TruckType.REEFER then "reefer" else "dry"
  | none => ""

/-- `SimpleStateView.truck_features` exposes only the type string
(`TruckFeat` has a single field). -/
def PlannerState.truck_feat_type (s : PlannerState) (tid : String) : String :=
  s.type_str tid

/-- `SimpleStateView.truck_residuals`, built from the `Truck`
convenience residuals. -/
def PlannerState.truck_residuals (s : PlannerState) (tid : String) : TruckResiduals :=
  match s.trucks.lookup tid with
  | some t => ⟨t.residual_volume_m3, t.residual_cold_m3, t.residual_weight_kg⟩
  | none => ⟨0, 0, 0⟩

/-- `SimpleStateView.open_trucks(type_filter=...)`: the open-set ids
that match the type filter, in the set's iteration order. -/
def PlannerState.open_trucks (s : PlannerState) (filt : String) : List String :=
  s.openIds.filter (fun tid => s.type_str tid = filt)

/-- `SimpleStateView.all_available_trucks(type_filter=...)`. -/
def PlannerState.all_available_trucks (s : PlannerState) (filt : String) : List String :=
  (s.trucks.map Prod.fst).filter (fun tid => s.type_str tid = filt)

/-- `SimpleStateView.sorted_items`. -/
def PlannerState.sorted_items (s : PlannerState) (oid : String) : List ItemRank :=
  (s.sortedItems.lookup oid).getD []

/-- Day-level policy knobs (`placers/policy.py` dataclass
`SimplePolicy`).  The placers read further attributes duck-typed through
`getattr(policy, …, False)` — `allow_open_new_reefer_A`,
`allow_open_new_dry_B` — and the orchestrator reads `alpha_threshold`;
drivers (`scripts/run.py`) additionally configure
`allow_open_new_dry_C`.  All attributes a policy object may carry are
modelled as fields. -/
structure SimplePolicy where
  allow_open_new_reefer_A : Bool := true
  allow_cold_in_dry_B : Bool := false
  per_truck_cooler_m3 : ℚ := 0
  day_bottleneck : String := "volume"
  allow_open_new_dry_B : Bool := false
  allow_open_new_dry_C : Bool := false
  alpha_threshold : ℚ := 0
deriving DecidableEq, Repr

/-- `SimpleFeasibility.fits_order_on_truck`
(`placers/feasibility.py`): volume, cold and weight gates against the
state residuals.  For a DRY truck `remaining_cold_m3` is 0, so the cold
gate compares the order's cold volume against 0. -/
def fits_order_on_truck (s : PlannerState) (oid tid : String)
    (_pol : SimplePolicy) : Bool :=
  let of := s.order_features oid
  let r := s.truck_residuals tid
  if of.effective_volume_m3 > r.remaining_volume_m3 then false
  else if of.cold_volume_m3 > r.remaining_cold_m3 then false
  else if of.weight_kg > r.remaining_weight_kg then false
  else true

/-- `SimpleFeasibility.cooler_feasible`: the cold-in-dry check.
`TruckResiduals` exposes neither `remaining_cooler_m3` nor
`cooler_used_m3`, so the source's `getattr` fallbacks resolve to
`used = 0.0`; `TruckFeat` carries no `cooler_capacity_m3` attribute,
so the capacity falls back to `policy.per_truck_cooler_m3`. -/
def cooler_feasible (s : PlannerState) (oid tid : String)
    (pol : SimplePolicy) : Bool :=
  if pol.allow_cold_in_dry_B = false then false
  else if s.truck_feat_type tid ≠ "dry" then false
  else
    let q_cold := (s.order_features oid).cold_volume_m3
    if q_cold ≤ 0 then false
    else
      let remaining_cooler := max 0 (pol.per_truck_cooler_m3 - 0)
      q_cold ≤ remaining_cooler

/-! ## Lexicographic comparison of Python tuples

Python compares tuples lexicographically with `<` on components; the
planner keys are tuples of floats (and, for ranking keys, datetimes and
strings).  `lexLtB ltb` is `tuple.__lt__` parameterised by the
component comparison. -/

section Lex

variable {κ β : Type} (ltb : κ → κ → Bool)

/-- Python's `tuple.__lt__`: the first differing component decides; a
strict prefix is smaller. -/
def lexLtB : List κ → List κ → Bool
  | [], [] => false
  | [], _ :: _ => true
  | _ :: _, [] => false
  | a :: as, b :: bs =>
    if ltb a b then true
    else if ltb b a then false
    else lexLtB as bs

/-- `ltb` is a strict comparison: asymmetric. -/
def LtbAsymm : Prop := ∀ a b, ltb a b = true → ltb b a = false

/-- `ltb` is transitive. -/
def LtbTrans : Prop := ∀ a b c, ltb a b = true → ltb b c = true → ltb a c = true

/-- incomparable components are equal (connexity). -/
def LtbConn : Prop := ∀ a b, ltb a b = false → ltb b a = false → a = b

theorem ltb_irrefl (hasymm : LtbAsymm ltb) (a : κ) : ltb a a = false := by
  by_cases h : ltb a a = true
  · exact hasymm a a h
  · simpa using h

theorem lexLtB_irrefl (hasymm : LtbAsymm ltb) :
    ∀ l, lexLtB ltb l l = false
  | [] => by simp [lexLtB]
  | a :: as => by
    simp only [lexLtB, ltb_irrefl ltb hasymm a, if_false]
    exact lexLtB_irrefl hasymm as

theorem lexLtB_asymm (hasymm : LtbAsymm ltb) :
    ∀ l₁ l₂, lexLtB ltb l₁ l₂ = true → lexLtB ltb l₂ l₁ = false
  | [], [] => by simp [lexLtB]
  | [], _ :: _ => by simp [lexLtB]
  | _ :: _, [] => by simp [lexLtB]
  | a :: as, b :: bs => by
    simp only [lexLtB]
    intro h
    by_cases hab : ltb a b = true
    · simp [hab, hasymm a b hab]
    · by_cases hba : ltb b a = true
      · simp [hab, hba] at h
      · simp only [hab, hba, if_false] at h ⊢
        exact lexLtB_asymm hasymm as bs h

theorem lexLtB_trans (hasymm : LtbAsymm ltb) (htrans : LtbTrans ltb)
    (heq : LtbConn ltb) :
    ∀ l₁ l₂ l₃, lexLtB ltb l₁ l₂ = true → lexLtB ltb l₂ l₃ = true →
      lexLtB ltb l₁ l₃ = true
  | _, [], [] => by simp [lexLtB]
  | _, _ :: _, [] => by simp [lexLtB]
  | [], _, _ :: _ => by simp [lexLtB]
  | a :: as, [], c :: cs => by simp [lexLtB]
  | a :: as, b :: bs, c :: cs => by
    simp only [lexLtB]
    intro h₁ h₂
    by_cases hab : ltb a b = true <;> by_cases hbc : ltb b c = true
    · simp [htrans a b c hab hbc]
    · by_cases hcb : ltb c b = true
      · simp [hbc, hcb] at h₂
      · have hbceq : b = c := heq b c (by simpa using hbc) (by simpa using hcb)
        subst hbceq
        simp [hab]
    · by_cases hba : ltb b a = true
      · simp [hab, hba] at h₁
      · have habeq : a = b := heq a b (by simpa using hab) (by simpa using hba)
        subst habeq
        simp [hbc]
    · by_cases hba : ltb b a = true
      · simp [hab, hba] at h₁
      · by_cases hcb : ltb c b = true
        · simp [hbc, hcb] at h₂
        · have hac : a = c := (heq a b (by simpa using hab) (by simpa using hba)).trans
            (heq b c (by simpa using hbc) (by simpa using hcb))
          have h₁' : lexLtB ltb as bs = true := by simpa [hab, hba] using h₁
          have h₂' : lexLtB ltb bs cs = true := by simpa [hbc, hcb] using h₂
          have hcc : ltb a c = false := by
            rw [hac]; exact ltb_irrefl ltb hasymm c
          have hca : ltb c a = false := by
            rw [hac]; exact ltb_irrefl ltb hasymm c
          simp [hcc, hca, lexLtB_trans hasymm htrans heq as bs cs h₁' h₂']

theorem lexLtB_eq_of_not (heq : LtbConn ltb) :
    ∀ l₁ l₂, lexLtB ltb l₁ l₂ = false → lexLtB ltb l₂ l₁ = false → l₁ = l₂
  | [], [] => by simp
  | [], _ :: _ => by simp [lexLtB]
  | _ :: _, [] => by simp [lexLtB]
  | a :: as, b :: bs => by
    simp only [lexLtB]
    intro h₁ h₂
    by_cases hab : ltb a b = true
    · simp [hab] at h₁
    · by_cases hba : ltb b a = true
      · simp [hab, hba] at h₂
      · simp only [hab, hba, if_false] at h₁ h₂
        have : a = b := heq a b (by simpa using hab) (by simpa using hba)
        rw [this, lexLtB_eq_of_not heq as bs h₁ h₂]

theorem lexLtB_negtrans (hasymm : LtbAsymm ltb) (htrans : LtbTrans ltb)
    (heq : LtbConn ltb) {l₁ l₂ l₃ : List κ}
    (h₁ : lexLtB ltb l₁ l₂ = false) (h₂ : lexLtB ltb l₂ l₃ = false) :
    lexLtB ltb l₁ l₃ = false := by
  by_cases hac : lexLtB ltb l₁ l₃ = true
  · by_cases hba : lexLtB ltb l₂ l₁ = true
    · have : lexLtB ltb l₂ l₃ = true :=
        lexLtB_trans ltb hasymm htrans heq l₂ l₁ l₃ hba hac
      simp [this] at h₂
    · have h12 : l₁ = l₂ := lexLtB_eq_of_not ltb heq l₁ l₂ h₁ (by simpa using hba)
      rw [h12] at hac
      simp [hac] at h₂
  · simpa using hac

/-! ### The best-so-far loop of the best-fit placers

`for tid in …: if key < best[0]: best = (key, tid)` keeps the first
candidate attaining the minimal key (later candidates replace the
incumbent only on a strictly smaller key). -/

/-- One loop iteration: `if best is None or key < best[0]`. -/
def bestStep (acc : Option (List κ × β)) (p : List κ × β) :
    Option (List κ × β) :=
  match acc with
  | none => some p
  | some b => if lexLtB ltb p.1 b.1 then some p else some b

/-- The whole candidate loop. -/
def chooseLoop (l : List (List κ × β)) : Option (List κ × β) :=
  l.foldl (bestStep ltb) none

/-- Right-to-left reformulation of the loop result. -/
def firstMin : List (List κ × β) → Option (List κ × β)
  | [] => none
  | p :: rest =>
    match firstMin rest with
    | none => some p
    | some q => if lexLtB ltb q.1 p.1 then some q else some p

/-- `merge b r`: fold the incumbent `b` into the result `r` of the
remaining loop. -/
def bestMerge (b : List κ × β) (r : Option (List κ × β)) :
    Option (List κ × β) :=
  match r with
  | none => some b
  | some q => if lexLtB ltb q.1 b.1 then some q else some b

theorem bestMerge_assoc (hasymm : LtbAsymm ltb) (htrans : LtbTrans ltb)
    (heq : LtbConn ltb) (x b : List κ × β) (r : Option (List κ × β)) :
    bestMerge ltb (if lexLtB ltb x.1 b.1 then x else b) r
      = bestMerge ltb b (bestMerge ltb x r) := by
  match r with
  | none =>
    simp only [bestMerge]
    by_cases hxb : lexLtB ltb x.1 b.1 = true <;> simp [hxb]
  | some c =>
    simp only [bestMerge]
    by_cases hxb : lexLtB ltb x.1 b.1 = true
    · by_cases hcx : lexLtB ltb c.1 x.1 = true
      · have hcb : lexLtB ltb c.1 b.1 = true :=
          lexLtB_trans ltb hasymm htrans heq c.1 x.1 b.1 hcx hxb
        simp [hxb, hcx, hcb]
      · simp [hxb, hcx]
    · by_cases hcx : lexLtB ltb c.1 x.1 = true
      · simp [hxb, hcx]
      · have hcb : lexLtB ltb c.1 b.1 = false :=
          @lexLtB_negtrans _ ltb hasymm htrans heq c.1 x.1 b.1
            (by simpa using hcx) (by simpa using hxb)
        simp [hxb, hcx, hcb]

theorem foldl_bestStep_some (hasymm : LtbAsymm ltb) (htrans : LtbTrans ltb)
    (heq : LtbConn ltb) :
    ∀ (l : List (List κ × β)) (b : List κ × β),
      l.foldl (bestStep ltb) (some b) = bestMerge ltb b (chooseLoop ltb l)
  | [], b => by simp [chooseLoop, bestMerge]
  | x :: l, b => by
    simp only [chooseLoop, List.foldl_cons, bestStep]
    rw [foldl_bestStep_some hasymm htrans heq l]
    have : (if lexLtB ltb x.1 b.1 = true then some x else some b)
        = some (if lexLtB ltb x.1 b.1 then x else b) := by
      by_cases h : lexLtB ltb x.1 b.1 = true <;> simp [h]
    rw [this, foldl_bestStep_some hasymm htrans heq l]
    exact bestMerge_assoc ltb hasymm htrans heq x b (chooseLoop ltb l)

theorem chooseLoop_eq_firstMin (hasymm : LtbAsymm ltb) (htrans : LtbTrans ltb)
    (heq : LtbConn ltb) :
    ∀ l : List (List κ × β), chooseLoop ltb l = firstMin ltb l
  | [] => rfl
  | x :: l => by
    simp only [chooseLoop, List.foldl_cons, bestStep, firstMin]
    rw [foldl_bestStep_some ltb hasymm htrans heq l x,
      ← chooseLoop_eq_firstMin hasymm htrans heq l]
    rfl

theorem firstMin_eq_none_iff (l : List (List κ × β)) :
    firstMin ltb l = none ↔ l = [] := by
  match l with
  | [] => simp [firstMin]
  | x :: l =>
    simp only [firstMin]
    match firstMin ltb l with
    | none => simp
    | some q => by_cases h : lexLtB ltb q.1 x.1 = true <;> simp [h]

/-- Specification of the loop result: the winner is the first candidate
attaining the minimal key — every earlier candidate has a strictly
larger key, and no candidate at all has a strictly smaller one. -/
theorem firstMin_spec (hasymm : LtbAsymm ltb) (htrans : LtbTrans ltb)
    (heq : LtbConn ltb) :
    ∀ (l : List (List κ × β)) (p : List κ × β), firstMin ltb l = some p →
      (∃ pre post, l = pre ++ p :: post ∧
        ∀ q ∈ pre, lexLtB ltb p.1 q.1 = true) ∧
      ∀ q ∈ l, lexLtB ltb q.1 p.1 = false
  | [], p => by simp [firstMin]
  | x :: l, p => by
    simp only [firstMin]
    match hrest : firstMin ltb l with
    | none =>
      intro hp
      cases hp
      have hl : l = [] := (firstMin_eq_none_iff ltb l).mp hrest
      subst hl
      refine ⟨⟨[], [], rfl, by simp⟩, ?_⟩
      intro q hq
      simp only [List.mem_singleton] at hq
      subst hq
      exact lexLtB_irrefl ltb hasymm _
    | some q =>
      intro hp
      replace hp : (if lexLtB ltb q.1 x.1 = true then some q else some x)
          = some p := hp
      have ⟨⟨pre, post, hsplit, hpre⟩, hmin⟩ :=
        firstMin_spec hasymm htrans heq l q hrest
      by_cases hlt : lexLtB ltb q.1 x.1 = true
      · rw [if_pos hlt] at hp
        cases hp
        refine ⟨⟨x :: pre, post, by rw [hsplit, List.cons_append], ?_⟩, ?_⟩
        · intro r hr
          rcases List.mem_cons.mp hr with h | h
          · subst h; exact hlt
          · exact hpre r h
        · intro r hr
          rcases List.mem_cons.mp hr with h | h
          · subst h; exact lexLtB_asymm ltb hasymm _ _ hlt
          · exact hmin r h
      · rw [if_neg hlt] at hp
        cases hp
        refine ⟨⟨[], l, rfl, by simp⟩, ?_⟩
        intro r hr
        rcases List.mem_cons.mp hr with h | h
        · subst h; exact lexLtB_irrefl ltb hasymm _
        · exact lexLtB_negtrans ltb hasymm htrans heq (hmin r h)
            (by simpa using hlt)

end Lex

/-- Strict comparison of two Python floats (modelled as `ℚ`). -/
def qLtb (a b : ℚ) : Bool := decide (a < b)

theorem qLtb_asymm : LtbAsymm qLtb := by
  intro a b h
  simp only [qLtb, decide_eq_true_eq] at h
  simpa [qLtb] using lt_asymm h

theorem qLtb_trans : LtbTrans qLtb := by
  intro a b c h₁ h₂
  simp only [qLtb, decide_eq_true_eq] at h₁ h₂ ⊢
  exact lt_trans h₁ h₂

theorem qLtb_conn : LtbConn qLtb := by
  intro a b h₁ h₂
  simp only [qLtb, decide_eq_false_iff_not] at h₁ h₂
  exact le_antisymm (not_lt.mp h₂) (not_lt.mp h₁)

/-! ## Ranking keys

A ranking sort key is a Python tuple whose components are floats
(`ℚ`), datetimes (minutes, `Nat`) or strings.  Within one ranking all
keys have the same component type at each position, so the
cross-constructor ordering below (a fixed order of the three kinds) is
never exercised between two keys of the same scheme. -/

inductive KeyPart where
  | kq (x : ℚ)
  | kt (m : Nat)
  | ks (s : String)
deriving DecidableEq, Repr

/-- Strict comparison of key components (Python `<` on the common
component type). -/
def KeyPart.ltb : KeyPart → KeyPart → Bool
  | .kq a, .kq b => decide (a < b)
  | .kt a, .kt b => decide (a < b)
  | .ks a, .ks b => decide (a < b)
  | .kq _, _ => true
  | .kt _, .kq _ => false
  | .kt _, .ks _ => true
  | .ks _, _ => false

theorem KeyPart.ltb_asymm : LtbAsymm KeyPart.ltb := by
  intro a b h
  cases a <;> cases b <;>
    simp only [KeyPart.ltb, decide_eq_true_eq] at h ⊢ <;>
    first
      | rfl
      | exact absurd h (by decide)
      | simp only [decide_eq_false_iff_not]; exact lt_asymm h

theorem KeyPart.ltb_trans : LtbTrans KeyPart.ltb := by
  intro a b c h₁ h₂
  cases a <;> cases b <;> cases c <;>
    simp only [KeyPart.ltb, decide_eq_true_eq] at h₁ h₂ ⊢ <;>
    first
      | rfl
      | exact absurd h₁ (by decide)
      | exact absurd h₂ (by decide)
      | exact lt_trans h₁ h₂

theorem KeyPart.ltb_conn : LtbConn KeyPart.ltb := by
  intro a b h₁ h₂
  cases a <;> cases b <;>
    simp only [KeyPart.ltb, decide_eq_false_iff_not] at h₁ h₂ <;>
    first
      | exact absurd h₁ (by decide)
      | exact absurd h₂ (by decide)
      | exact congrArg KeyPart.kq (le_antisymm (not_lt.mp h₂) (not_lt.mp h₁))
      | exact congrArg KeyPart.kt (le_antisymm (not_lt.mp h₂) (not_lt.mp h₁))
      | exact congrArg KeyPart.ks (le_antisymm (not_lt.mp h₂) (not_lt.mp h₁))

/-- Python's `sorted` on a list of strings (ascending; the inputs the
engine sorts are id sets, hence duplicate-free). `sorted` is stable,
and stable sorts by a total preorder are pointwise equal, so insertion
sort is a faithful model. -/
def sortedStrings (l : List String) : List String :=
  l.insertionSort (· ≤ ·)

/-! ## Packing policy (`placers/packing.py`, `SimplePackingPolicy`) -/

/-- A placement slot (the `slot` dict). -/
structure Slot where
  zone : String
  lane : String
  layer : Nat
  pos : Nat
deriving DecidableEq, Repr

/-- `LoadingPlan` from `placers/base.py`; the `notes` field (free-form
debug strings with formatted floats) is presentation-only and elided. -/
structure LoadingPlan where
  placements : List (String × Int × Slot)
deriving DecidableEq, Repr

/-- Per-zone lane weights (`lane_weight[zone]`). -/
structure LaneW where
  left : ℚ := 0
  right : ℚ := 0
deriving DecidableEq, Repr

/-- The loop state of `SimplePackingPolicy.plan`: per-zone lane weights
and per-zone next-top-layer counters (`top_layer_next`, starting at 2;
the floor is layer 1). -/
structure PackState where
  cold : LaneW := {}
  ambient : LaneW := {}
  haz : LaneW := {}
  topCold : Nat := 2
  topAmbient : Nat := 2
  topHaz : Nat := 2
deriving DecidableEq, Repr

def PackState.laneW (ps : PackState) (zone : String) : LaneW :=
  if zone = "cold" then ps.cold
  else if zone = "haz" then ps.haz
  else ps.ambient

def PackState.topOf (ps : PackState) (zone : String) : Nat :=
  if zone = "cold" then ps.topCold
  else if zone = "haz" then ps.topHaz
  else ps.topAmbient

def PackState.bumpTop (ps : PackState) (zone : String) : PackState :=
  if zone = "cold" then { ps with topCold := ps.topCold + 1 }
  else if zone = "haz" then { ps with topHaz := ps.topHaz + 1 }
  else { ps with topAmbient := ps.topAmbient + 1 }

def PackState.addW (ps : PackState) (zone lane : String) (w : ℚ) : PackState :=
  if zone = "cold" then
    { ps with cold := if lane = "left" then { ps.cold with left := ps.cold.left + w }
                      else { ps.cold with right := ps.cold.right + w } }
  else if zone = "haz" then
    { ps with haz := if lane = "left" then { ps.haz with left := ps.haz.left + w }
                     else { ps.haz with right := ps.haz.right + w } }
  else
    { ps with ambient := if lane = "left" then { ps.ambient with left := ps.ambient.left + w }
                         else { ps.ambient with right := ps.ambient.right + w } }

/-- The zone chosen for one ranked line: separation first, then cold,
else ambient — all read from the line's `features` dict with the
source's `.get` defaults. -/
def lineZone (ir : ItemRank) : String :=
  let sep_tag := pyLower (featStr ir.features "sep_tag" "non_food")
  if sep_tag = "hazardous" then "haz"
  else if 0 < featNum ir.features "q_cold" 0 then "cold"
  else "ambient"

/-- The `for idx, ir in enumerate(seq)` loop body of
`SimplePackingPolicy.plan`. -/
def planGo (idx : Nat) (ps : PackState) : List ItemRank → List (String × Int × Slot)
  | [] => []
  | ir :: rest =>
    let f := ir.features
    let w := featNum f "w" 0
    let fragile_score := featNum f "fragile_score" 0
    let upright01 := featNum f "upright01" 0
    let zone := lineZone ir
    let lw := ps.laneW zone
    let lane := if lw.left ≤ lw.right then "left" else "right"
    let layerPs : Nat × PackState :=
      if 1 ≤ fragile_score ∨ upright01 = 1 then (ps.topOf zone, ps.bumpTop zone)
      else (1, ps)
    let slot : Slot := ⟨zone, lane, layerPs.1, idx⟩
    let ps₂ := layerPs.2.addW zone lane w
    (ir.item_id, ir.qty, slot) :: planGo (idx + 1) ps₂ rest

/-- `SimplePackingPolicy.plan`: map the pre-sorted `ItemRank` sequence
of the order to slots.  The source returns `Optional[LoadingPlan]` but
never `None`. -/
def SimplePackingPolicy.plan (s : PlannerState) (_truck_id oid : String) :
    Option LoadingPlan :=
  let seq := s.sorted_items oid
  some ⟨planGo 0 {} seq⟩

/-! ## Best-fit reefer placer (`placers/best_fit_reefer.py`) -/

/-- Reefer ranking dimensions (`Literal["cold", "volume", "weight"]`). -/
inductive ReeferDim where
  | cold
  | volume
  | weight
deriving DecidableEq, Repr

/-- Dry ranking dimensions (`Literal["volume", "weight"]`). -/
inductive DryDim where
  | volume
  | weight
deriving DecidableEq, Repr

/-- `_residual_key` in `best_fit_reefer.py`: the lexicographic tuple of
leftovers per the scheme, or `None` when some scheme dimension would go
negative. -/
def residual_key (s : PlannerState) (oid tid : String)
    (scheme : List ReeferDim) : Option (List ℚ) :=
  let f := s.order_features oid
  let r := s.truck_residuals tid
  let demand : ReeferDim → ℚ := fun d =>
    match d with
    | .cold => f.cold_volume_m3
    | .volume => f.effective_volume_m3
    | .weight => f.weight_kg
  let resid : ReeferDim → ℚ := fun d =>
    match d with
    | .cold => r.remaining_cold_m3
    | .volume => r.remaining_volume_m3
    | .weight => r.remaining_weight_kg
  if scheme.all (fun d => decide (0 ≤ resid d - demand d)) then
    some (scheme.map (fun d => resid d - demand d))
  else none

/-- The candidate `(key, truck)` pairs the reefer chooser's loop
actually folds over, in traversal order: open reefers passing `fits`
whose residual key is defined (trucks hit by a `continue` contribute
nothing). -/
def reeferCandidates (s : PlannerState) (pol : SimplePolicy) (oid : String)
    (scheme : List ReeferDim) : List (List ℚ × String) :=
  (s.open_trucks "reefer").filterMap fun tid =>
    if fits_order_on_truck s oid tid pol then
      (residual_key s oid tid scheme).map (fun k => (k, tid))
    else none

/-- `choose_best_open_reefer`: the best-so-far loop over open reefers
(`if best is None or key < best[0]`). -/
def choose_best_open_reefer (s : PlannerState) (pol : SimplePolicy)
    (oid : String)
    (scheme : List ReeferDim := [.cold, .volume, .weight]) : Option String :=
  (chooseLoop qLtb (reeferCandidates s pol oid scheme)).map Prod.snd

/-- `maybe_open_new_reefer`: gate on `allow_open_new_reefer_A`, then
scan the available-but-not-open reefers in ascending id order
(`sorted(all_ids - open_ids)`) and return the first that fits. -/
def maybe_open_new_reefer (s : PlannerState) (pol : SimplePolicy)
    (oid : String) : Option String :=
  if pol.allow_open_new_reefer_A = false then none
  else
    let openIds := s.open_trucks "reefer"
    let allIds := s.all_available_trucks "reefer"
    let candidates := sortedStrings (allIds.filter (fun tid => ¬ tid ∈ openIds))
    candidates.find? (fun tid => fits_order_on_truck s oid tid pol)

/-- `AssignOrder` from `placers/base.py`; `rationale` (a formatted debug
string in the source) is reduced to a short tag. -/
structure AssignOrder where
  order_id : String
  truck_id : String
  packing : LoadingPlan
  rationale : String := ""
  opened_new_truck : Bool := false
deriving DecidableEq, Repr

/-- `assign_to_best_reefer`: open reefers first, then (policy-gated) a
new reefer; build the packing plan; wrap the decision. -/
def assign_to_best_reefer (s : PlannerState) (pol : SimplePolicy)
    (oid : String)
    (ranking_scheme : List ReeferDim := [.cold, .volume, .weight]) :
    Option AssignOrder :=
  let first := choose_best_open_reefer s pol oid ranking_scheme
  let tidNew : Option String × Bool :=
    match first with
    | some t => (some t, false)
    | none =>
      let t := maybe_open_new_reefer s pol oid
      (t, t.isSome)
  match tidNew.1 with
  | none => none
  | some tid =>
    match SimplePackingPolicy.plan s tid oid with
    | none => none
    | some plan =>
      some ⟨oid, tid, plan, "best_reefer", tidNew.2⟩

/-! ## Best-fit dry placer (`placers/best_fit_dry.py`) -/

/-- `_residual_key_dry`. -/
def residual_key_dry (s : PlannerState) (oid tid : String)
    (scheme : List DryDim) : Option (List ℚ) :=
  let f := s.order_features oid
  let r := s.truck_residuals tid
  let demand : DryDim → ℚ := fun d =>
    match d with
    | .volume => f.effective_volume_m3
    | .weight => f.weight_kg
  let resid : DryDim → ℚ := fun d =>
    match d with
    | .volume => r.remaining_volume_m3
    | .weight => r.remaining_weight_kg
  if scheme.all (fun d => decide (0 ≤ resid d - demand d)) then
    some (scheme.map (fun d => resid d - demand d))
  else none

/-- Candidate pairs traversed by `choose_best_open_dry`'s loop. -/
def dryCandidates (s : PlannerState) (pol : SimplePolicy) (oid : String)
    (scheme : List DryDim) : List (List ℚ × String) :=
  (s.open_trucks "dry").filterMap fun tid =>
    if fits_order_on_truck s oid tid pol then
      (residual_key_dry s oid tid scheme).map (fun k => (k, tid))
    else none

/-- `choose_best_open_dry`: best-so-far loop over open DRY trucks. -/
def choose_best_open_dry (s : PlannerState) (pol : SimplePolicy)
    (oid : String)
    (scheme : List DryDim := [.volume, .weight]) : Option String :=
  (chooseLoop qLtb (dryCandidates s pol oid scheme)).map Prod.snd

/-- `maybe_open_new_dry`: gate on `policy.allow_open_new_dry_B` (read
via `getattr(policy, "allow_open_new_dry_B", False)`), scan
available-but-not-open DRY trucks in ascending id order, require `fits`
and — when the order carries cold volume — `cooler_feasible`; return
the first acceptable candidate. -/
def maybe_open_new_dry (s : PlannerState) (pol : SimplePolicy)
    (oid : String) : Option String :=
  if pol.allow_open_new_dry_B = false then none
  else
    let openIds := s.open_trucks "dry"
    let allDry := s.all_available_trucks "dry"
    let candidates := sortedStrings (allDry.filter (fun tid => ¬ tid ∈ openIds))
    let orderHasCold := decide (0 < (s.order_features oid).cold_volume_m3)
    candidates.find? (fun tid =>
      fits_order_on_truck s oid tid pol &&
        (!orderHasCold || cooler_feasible s oid tid pol))

/-- `assign_bucket_b_order`: existing reefers only, then open DRY, then
maybe open a new DRY. -/
def assign_bucket_b_order (s : PlannerState) (pol : SimplePolicy)
    (oid : String)
    (reefer_scheme : List ReeferDim := [.cold, .volume, .weight])
    (dry_scheme : List DryDim := [.volume, .weight]) : Option AssignOrder :=
  match choose_best_open_reefer s pol oid reefer_scheme with
  | some reefer_tid =>
    match SimplePackingPolicy.plan s reefer_tid oid with
    | none => none
    | some plan => some ⟨oid, reefer_tid, plan, "BucketB: used existing reefer", false⟩
  | none =>
    match choose_best_open_dry s pol oid dry_scheme with
    | some dry_tid =>
      match SimplePackingPolicy.plan s dry_tid oid with
      | none => none
      | some plan => some ⟨oid, dry_tid, plan, "BucketB: used open dry", false⟩
    | none =>
      match maybe_open_new_dry s pol oid with
      | some new_dry_tid =>
        match SimplePackingPolicy.plan s new_dry_tid oid with
        | none => none
        | some plan => some ⟨oid, new_dry_tid, plan, "BucketB: opened new dry", false⟩
      | none => none

/-- `assign_bucket_c_order`: open DRY first; otherwise (policy-gated)
open a new DRY; else infeasible. -/
def assign_bucket_c_order (s : PlannerState) (pol : SimplePolicy)
    (oid : String)
    (dry_scheme : List DryDim := [.volume, .weight]) : Option AssignOrder :=
  let tid0 := choose_best_open_dry s pol oid dry_scheme
  let tid1 :=
    match tid0 with
    | some t => some t
    | none => maybe_open_new_dry s pol oid
  match tid1 with
  | none => none
  | some tid =>
    match SimplePackingPolicy.plan s tid oid with
    | none => none
    | some plan => some ⟨oid, tid, plan, "BucketC: dry-only", false⟩

/-! ## KPI helpers (`quality_metrics/kpis.py`) used by the tracker -/

def EPS : ℚ := 1e-12

/-- `u_vol_k`: volume utilisation, clamped to `[0,1]`, 0 on `Q ≤ EPS`. -/
def u_vol_k (loaded_v_eff Q_k : ℚ) : ℚ :=
  if Q_k ≤ EPS then 0 else max 0 (min 1 (loaded_v_eff / Q_k))

/-- `u_w_k`: weight utilisation, 0 on `W ≤ EPS`. -/
def u_w_k (loaded_w W_k : ℚ) : ℚ :=
  if W_k ≤ EPS then 0 else max 0 (loaded_w / W_k)

/-- `u_cold_k`: cold utilisation, clamped, 0 on `Q_cold ≤ EPS`. -/
def u_cold_k (loaded_q_cold Q_k_cold : ℚ) : ℚ :=
  if Q_k_cold ≤ EPS then 0 else max 0 (min 1 (loaded_q_cold / Q_k_cold))

/-- `u_bn_k`: bottleneck utilisation. -/
def u_bn_k (u_vol u_w : ℚ) : ℚ := min u_vol u_w

/-! ## Day tracker (`quality_metrics/tracker.py`) -/

/-- The static spec passed to `open_truck` as keyword arguments. -/
structure TruckSpecs where
  is_reefer : Bool
  Q : ℚ
  Q_cold : ℚ
  W : ℚ
  fixed_cost : ℚ
  tau_min : ℚ
deriving DecidableEq, Repr

/-- One per-truck ledger dict.  Keys a fresh ledger does not carry
(`departed`, the departure snapshot, `departure_time`) are read in the
source through `.get(..., default)`; they are fields with the
corresponding defaults here. -/
structure TruckLedger where
  is_reefer : Bool
  Q : ℚ
  Q_cold : ℚ
  W : ℚ
  fixed_cost : ℚ
  tau_min : ℚ
  used_v_eff : ℚ := 0
  used_q : ℚ := 0
  used_q_cold : ℚ := 0
  used_w : ℚ := 0
  cooler_used_m3 : ℚ := 0
  opened : Bool := true
  departed : Bool := false
  u_vol_at_departure : Option ℚ := none
  u_w_at_departure : Option ℚ := none
  u_cold_at_departure : Option ℚ := none
  u_bn_at_departure : Option ℚ := none
  departure_time : Option String := none
deriving DecidableEq, Repr

/-- One per-order ledger dict. -/
structure OrderRec where
  q : ℚ
  q_cold : ℚ
  w : ℚ
  v_eff : ℚ
  is_vip : Bool
  assigned_truck_count : Nat
  due_met : Option Bool
  delay_min : Option ℚ
  placed : Bool
  reason : Option String
deriving DecidableEq, Repr

/-- `DayTracker.__init__`: dicts keyed by id (association lists keep
insertion order as Python dicts do), sets, and the day totals. -/
structure DayTracker where
  trucks : List (String × TruckLedger) := []
  orders : List (String × OrderRec) := []
  opened_trucks : List String := []
  departed_trucks : List String := []
  cold_on_dry_pairs : List (String × String) := []
  sum_q : ℚ := 0
  sum_v_eff : ℚ := 0
  sum_w : ℚ := 0
  c_total : ℚ := 0
  n_missed_vip : Nat := 0
  n_missed_due : Nat := 0
deriving DecidableEq, Repr

/-- In-place update of the entry bound to `key` (a Python dict holds at
most one entry per key). -/
def updateA {β : Type} (l : List (String × β)) (key : String) (f : β → β) :
    List (String × β) :=
  l.map (fun p => if p.1 = key then (p.1, f p.2) else p)

/-- `set.add` on the list modelling a Python set of strings. -/
def addStr (l : List String) (x : String) : List String :=
  if x ∈ l then l else l ++ [x]

/-- `set.add` on the cold-on-dry pair set. -/
def addPair (l : List (String × String)) (x : String × String) :
    List (String × String) :=
  if x ∈ l then l else l ++ [x]

/-- `DayTracker.open_truck`: raises `ValueError` on any duplicate
truck id (the raise precedes every mutation); otherwise registers the
runtime ledger, marks the truck opened and accumulates its fixed cost
into the day total. -/
def DayTracker.open_truck (t : DayTracker) (truck_id : String)
    (sp : TruckSpecs) : Except String DayTracker :=
  if (t.trucks.lookup truck_id).isSome then
    .error ("Truck '" ++ truck_id ++ "' already opened.")
  else
    .ok { t with
      trucks := t.trucks ++ [(truck_id,
        { is_reefer := sp.is_reefer, Q := sp.Q, Q_cold := sp.Q_cold,
          W := sp.W, fixed_cost := sp.fixed_cost, tau_min := sp.tau_min })],
      opened_trucks := addStr t.opened_trucks truck_id,
      c_total := t.c_total + sp.fixed_cost }

/-- `DayTracker.on_assign`: raises `KeyError` when the truck was never
registered; otherwise adds the order quantities to the truck loads,
creates/updates the order ledger entry, bumps its assignment count and
accumulates the day totals. -/
def DayTracker.on_assign (t : DayTracker) (order_id truck_id : String)
    (q q_cold w v_eff : ℚ) (is_vip : Bool)
    (due_met : Option Bool := none) (delay_min : Option ℚ := none)
    (cold_on_dry : Bool := false) : Except String DayTracker :=
  if (t.trucks.lookup truck_id).isSome = false then
    .error ("Truck '" ++ truck_id ++ "' not registered (call open_truck first).")
  else
    let trucks' := updateA t.trucks truck_id (fun led =>
      { led with
        used_q := led.used_q + q, used_q_cold := led.used_q_cold + q_cold,
        used_w := led.used_w + w, used_v_eff := led.used_v_eff + v_eff })
    let orders1 :=
      match t.orders.lookup order_id with
      | some _ => t.orders
      | none => t.orders ++ [(order_id,
          { q := q, q_cold := q_cold, w := w, v_eff := v_eff, is_vip := is_vip,
            assigned_truck_count := 0, due_met := due_met,
            delay_min := delay_min, placed := true, reason := none })]
    let orders2 := updateA orders1 order_id (fun r =>
      { r with assigned_truck_count := r.assigned_truck_count + 1 })
    .ok { t with
      trucks := trucks', orders := orders2,
      sum_q := t.sum_q + q, sum_v_eff := t.sum_v_eff + v_eff,
      sum_w := t.sum_w + w,
      n_missed_vip :=
        t.n_missed_vip + (if is_vip ∧ due_met = some false then 1 else 0),
      n_missed_due :=
        t.n_missed_due + (if due_met = some false then 1 else 0),
      cold_on_dry_pairs :=
        if cold_on_dry then addPair t.cold_on_dry_pairs (order_id, truck_id)
        else t.cold_on_dry_pairs }

/-- `DayTracker.on_failure` (never raises): create the order entry if
absent (with zero quantities), else mark it not placed, store the
reason and or-in the VIP flag; on a missed due, stamp `due_met=False`,
the delay and bump the counters. -/
def DayTracker.on_failure (t : DayTracker) (order_id : String)
    (is_vip : Bool) (due_missed : Bool) (delay_min : Option ℚ)
    (reason : String) : DayTracker :=
  let orders1 :=
    match t.orders.lookup order_id with
    | none => t.orders ++ [(order_id,
        { q := 0, q_cold := 0, w := 0, v_eff := 0, is_vip := is_vip,
          assigned_truck_count := 0, due_met := none, delay_min := none,
          placed := false, reason := some reason })]
    | some _ => updateA t.orders order_id (fun r =>
        { r with
          placed := false, reason := some reason,
          is_vip := is_vip || r.is_vip })
  if due_missed then
    { t with
      orders := updateA orders1 order_id (fun r =>
        { r with due_met := some false, delay_min := delay_min }),
      n_missed_due := t.n_missed_due + 1,
      n_missed_vip := t.n_missed_vip + (if is_vip then 1 else 0) }
  else { t with orders := orders1 }

/-- `DayTracker.on_departure`: raises `KeyError` for an unregistered
truck id; a second call on an already-departed truck returns without
touching anything; otherwise it snapshots the utilisations, stamps the
departure time and marks the truck departed. -/
def DayTracker.on_departure (t : DayTracker) (truck_id : String)
    (when : Option String := none) : Except String DayTracker :=
  match t.trucks.lookup truck_id with
  | none =>
    .error ("Truck '" ++ truck_id ++ "' not registered (call open_truck first).")
  | some led =>
    if led.departed then .ok t
    else
      let uvol := u_vol_k led.used_v_eff led.Q
      let uw := u_w_k led.used_w led.W
      let uc := u_cold_k led.used_q_cold led.Q_cold
      let ubn := u_bn_k uvol uw
      .ok { t with
        trucks := updateA t.trucks truck_id (fun l =>
          { l with
            u_vol_at_departure := some uvol, u_w_at_departure := some uw,
            u_cold_at_departure := some uc, u_bn_at_departure := some ubn,
            departure_time := when, departed := true }),
        departed_trucks := addStr t.departed_trucks truck_id }

/-! ## Placer orchestrator (`planning/placer_orchestrator.py`) -/

/-- `determine_bucket`: `'C'` when `αᵢ ≤ 1e-12`, `'A'` when
`αᵢ ≥ α_threshold`, else `'B'`. -/
def determine_bucket (alpha_i : ℚ) (alpha_threshold : ℚ) : String :=
  if alpha_i ≤ 1e-12 then "C"
  else if alpha_i ≥ alpha_threshold then "A"
  else "B"

/-- `PlacerOrchestrator._ensure_tracker_truck_open`: no-op when the
tracker already knows the truck; otherwise read the specs off the depot
truck and register it.  `is_reefer` is
`"reefer" in str(t.type).lower()`, which holds exactly for REEFER.  A
depot miss would raise `KeyError` in the source (`Depot.get_truck`);
the `open_truck` call cannot fail since the id was just checked
absent. -/
def ensure_tracker_truck_open (s : PlannerState) (tr : DayTracker)
    (truck_id : String) : DayTracker :=
  if (tr.trucks.lookup truck_id).isSome then tr
  else
    match s.trucks.lookup truck_id with
    | none => tr
    | some t =>
      match tr.open_truck truck_id
        ⟨decide (t.type = TruckType.REEFER), t.total_capacity_m3,
         t.cold_capacity_m3, t.weight_limit_kg, t.fixed_cost,
         t.min_utilization⟩ with
      | .ok tr' => tr'
      | .error _ => tr

/-- The bare dict created by
`self.tracker.trucks.get(decision.truck_id, {})` when the cooler
bookkeeping touches an id the tracker does not know: every key is
absent, so every later `.get(..., default)` sees its default and the
truck does not count as opened. -/
def bareLedger : TruckLedger :=
  { is_reefer := false, Q := 0, Q_cold := 0, W := 0, fixed_cost := 0,
    tau_min := 0, opened := false }

/-- `PlacerOrchestrator.apply_decision` (no `commit_hook`): ensure the
truck is opened in the tracker, add it to the open set, replay the
demand onto the depot `Truck` runtime ledger, book cooler usage in the
tracker for cold-on-dry, and call `on_assign`.  Notes:
`q = getattr(f, "volume_m3", 0.0)` (absent on `SimpleStateView`
features); the depot-side cooler bump compares
`str(t.type).lower()` — `"trucktype.dry"` — with `"dry"`, so it never
fires; `record_placement` only appends timestamped CSV rows and is
elided. -/
def apply_decision (s : PlannerState) (tr : DayTracker)
    (d : AssignOrder) (f : OrderFeat) : PlannerState × DayTracker :=
  let tr1 := ensure_tracker_truck_open s tr d.truck_id
  let s1 := { s with openIds := addStr s.openIds d.truck_id }
  let v_eff := f.effective_volume_m3
  let q_cold := f.cold_volume_m3
  let w := f.weight_kg
  let q := f.volume_m3.getD 0
  let s2 := { s1 with trucks := updateA s1.trucks d.truck_id (fun t =>
    let t' := { t with
      used_volume_m3 := t.used_volume_m3 + v_eff,
      used_weight_kg := t.used_weight_kg + w,
      used_cold_m3 := t.used_cold_m3 + q_cold,
      assigned_orders := t.assigned_orders ++ [d.order_id] }
    if 0 < q_cold ∧ pyLower (pyEnumStr t'.type) = "dry" then
      { t' with used_cooler_m3 := t'.used_cooler_m3 + q_cold }
    else t') }
  let is_dry := decide (s.truck_feat_type d.truck_id = "dry")
  let tr2 :=
    if is_dry ∧ 0 < q_cold then
      match tr1.trucks.lookup d.truck_id with
      | some _ =>
        { tr1 with trucks := updateA tr1.trucks d.truck_id (fun led =>
            { led with cooler_used_m3 := led.cooler_used_m3 + q_cold }) }
      | none =>
        { tr1 with trucks := tr1.trucks ++
            [(d.truck_id, { bareLedger with cooler_used_m3 := q_cold })] }
    else tr1
  let tr3 :=
    match tr2.on_assign d.order_id d.truck_id q q_cold w v_eff
        (f.vip.getD false) none none (decide (0 < q_cold) && is_dry) with
    | .ok x => x
    | .error _ => tr2
  (s2, tr3)

/-- The bucket dispatch of `run_one` (the `if bucket == "A" … elif …
else` chain). -/
def dispatch_bucket (pol : SimplePolicy) (s : PlannerState) (oid : String)
    (bucket : String)
    (reefer_scheme_A reefer_scheme_B : List ReeferDim)
    (dry_scheme_B dry_scheme_C : List DryDim) : Option AssignOrder :=
  if bucket = "A" then assign_to_best_reefer s pol oid reefer_scheme_A
  else if bucket = "B" then
    assign_bucket_b_order s pol oid reefer_scheme_B dry_scheme_B
  else assign_bucket_c_order s pol oid dry_scheme_C

/-- `PlacerOrchestrator.run_one`: read the features, bucket on the cold
fraction (`f.cold_fraction if hasattr(f, "cold_fraction") else 0.0`),
dispatch to the bucket's placer, then commit or record the failure
with reason `infeasible_in_bucket_<bucket>`. -/
def run_one (pol : SimplePolicy) (s : PlannerState) (tr : DayTracker)
    (oid : String)
    (reefer_scheme_A : List ReeferDim := [.cold, .volume, .weight])
    (reefer_scheme_B : List ReeferDim := [.cold, .volume, .weight])
    (dry_scheme_B : List DryDim := [.volume, .weight])
    (dry_scheme_C : List DryDim := [.volume, .weight]) :
    Option AssignOrder × PlannerState × DayTracker :=
  let f := s.order_features oid
  let alpha := f.cold_fraction.getD 0
  let bucket := determine_bucket alpha pol.alpha_threshold
  let decision := dispatch_bucket pol s oid bucket
    reefer_scheme_A reefer_scheme_B dry_scheme_B dry_scheme_C
  let is_vip := f.vip.getD false
  match decision with
  | some d =>
    let st := apply_decision s tr d f
    (some d, st.1, st.2)
  | none =>
    (none, s, tr.on_failure oid is_vip false none
      ("infeasible_in_bucket_" ++ bucket))

/-! ## Sorting rows by their sort key

`rows.sort(key=...)` / `keyed.sort(key=lambda x: x[0])` is Python's
stable ascending sort.  A stable sort under a total preorder is
pointwise unique, so insertion sort models it faithfully. -/

/-- `a` may precede `b` in the sorted output: `b`'s key is not
strictly below `a`'s. -/
def keyedLe {α : Type} (a b : α × List KeyPart) : Prop :=
  lexLtB KeyPart.ltb b.2 a.2 = false

instance {α : Type} : DecidableRel (keyedLe (α := α)) := fun _ _ => by
  unfold keyedLe
  infer_instance

instance {α : Type} : IsTotal (α × List KeyPart) keyedLe :=
  ⟨fun a b => by
    unfold keyedLe
    by_cases h : lexLtB KeyPart.ltb b.2 a.2 = true
    · right
      exact lexLtB_asymm _ KeyPart.ltb_asymm _ _ h
    · left
      simpa using h⟩

instance {α : Type} : IsTrans (α × List KeyPart) keyedLe :=
  ⟨fun a b c h₁ h₂ => by
    unfold keyedLe at h₁ h₂ ⊢
    exact @lexLtB_negtrans _ KeyPart.ltb KeyPart.ltb_asymm KeyPart.ltb_trans
      KeyPart.ltb_conn c.2 b.2 a.2 h₂ h₁⟩

/-! ## Order ranker (`selectors/order_selector_vip_due.py`) -/

/-- Order ranking dimensions (the `RankDim` literal; an unknown or
duplicate dimension is rejected by the constructor, so a validated
scheme is a duplicate-free list of these). -/
inductive OrderDim where
  | vip
  | due
  | alpha
  | v_eff
  | weight
  | order_id
deriving DecidableEq, Repr

/-- The feature view `rank_orders` reads
(`SelectionState._OrderFeatView` plus the order id): `due_dt` is a
datetime bound to the planning day, modelled as minutes since
midnight. -/
structure OrderSelFeat where
  order_id : String
  vip : Bool
  due : Nat
  alpha : ℚ
  v_eff : ℚ
  weight : ℚ
deriving DecidableEq, Repr

/-- `OrderLevelSelector._make_sort_key`: fixed directions — vip
descending (`-int(vip)`), due ascending, alpha/v_eff/weight descending
(negated), order_id ascending. -/
def make_sort_key (scheme : List OrderDim) (f : OrderSelFeat) : List KeyPart :=
  scheme.map fun dim =>
    match dim with
    | .vip => .kq (-(if f.vip then (1 : ℚ) else 0))
    | .due => .kt f.due
    | .alpha => .kq (-f.alpha)
    | .v_eff => .kq (-f.v_eff)
    | .weight => .kq (-f.weight)
    | .order_id => .ks f.order_id

/-- One line of the ranked order queue (`OrderRankRow`). -/
structure OrderRankRow where
  rank : Nat
  order_id : String
  vip : Bool
  due : Nat
  alpha : ℚ
  v_eff : ℚ
  weight : ℚ
  sort_key : List KeyPart
deriving DecidableEq, Repr

/-- `OrderLevelSelector.rank_orders`: key every remaining order's
feature row, sort the rows by key, and enumerate ranks from 1. -/
def rank_orders (scheme : List OrderDim) (feats : List OrderSelFeat) :
    List OrderRankRow :=
  let rows := feats.map (fun f => (f, make_sort_key scheme f))
  let sorted := rows.insertionSort keyedLe
  sorted.enum.map (fun p =>
    { rank := p.1 + 1, order_id := p.2.1.order_id, vip := p.2.1.vip,
      due := p.2.1.due, alpha := p.2.1.alpha, v_eff := p.2.1.v_eff,
      weight := p.2.1.weight, sort_key := p.2.2 })

/-! ## Item ranker (`selectors/item_selector_priority.py`) -/

/-- Item ranking dimensions. -/
inductive ItemDim where
  | cold
  | weight
  | v_eff
  | liquid
  | stack_limit
  | fragile
  | upright
  | item_id
deriving DecidableEq, Repr

/-- Fragility score: regular 0, delicate 1, fragile 2 (the source
substring-tests the enum's string form). -/
def fragileScore : Fragility → ℚ
  | .REGULAR => 0
  | .DELICATE => 1
  | .FRAGILE => 2

/-- One raw row of `rank_items` (the `rows_raw` tuple layout). -/
structure ItemRow where
  item_id : String
  qty : Int
  cold01 : ℚ
  w_ij : ℚ
  v_ij_eff : ℚ
  liquid01 : ℚ
  stack_limit : ℚ
  fragile_score : ℚ
  upright01 : ℚ
deriving DecidableEq, Repr

/-- The per-line feature computation of `rank_items` (lines 106-137):
per-line weight and effective volume, `cold01` requiring positive
nominal line volume, handling attributes, fragility score. -/
def itemRow (it : Item) (qty : Int) : ItemRow :=
  { item_id := it.item_id, qty := qty,
    cold01 := if it.category_cold ∧ 0 < it.unit_volume_m3 * (qty : ℚ)
      then 1 else 0,
    w_ij := (qty : ℚ) * it.unit_weight_kg,
    v_ij_eff := (qty : ℚ) * it.effective_unit_volume,
    liquid01 := if it.is_liquid then 1 else 0,
    stack_limit := it.max_stack_load_kg,
    fragile_score := fragileScore it.fragility,
    upright01 := if it.upright_only then 1 else 0 }

/-- `ItemLevelSorter._make_sort_key_tuple`: fixed directions. -/
def make_item_sort_key (scheme : List ItemDim) (r : ItemRow) : List KeyPart :=
  scheme.map fun dim =>
    match dim with
    | .cold => .kq (-r.cold01)
    | .weight => .kq (-r.w_ij)
    | .v_eff => .kq (-r.v_ij_eff)
    | .liquid => .kq (-r.liquid01)
    | .stack_limit => .kq (-r.stack_limit)
    | .fragile => .kq r.fragile_score
    | .upright => .kq r.upright01
    | .item_id => .ks r.item_id

/-- `ItemLevelSorter.rank_items`: build the raw rows, key them per the
scheme, sort stably by key, and emit `ItemRank` lines whose `features`
dict carries exactly the seven numeric keys written at lines 166-180 of
the source — neither `sep_tag` nor `q_cold` nor `w` is among them. -/
def rank_items (scheme : List ItemDim) (pairs : List (Item × Int)) :
    List ItemRank :=
  let rows := pairs.map (fun p => itemRow p.1 p.2)
  let keyed := rows.map (fun r => (r, make_item_sort_key scheme r))
  let sorted := keyed.insertionSort keyedLe
  sorted.map (fun p =>
    { item_id := p.1.item_id, qty := p.1.qty,
      features := [
        ("cold01", .num p.1.cold01),
        ("w_ij", .num p.1.w_ij),
        ("v_ij_eff", .num p.1.v_ij_eff),
        ("liquid01", .num p.1.liquid01),
        ("stack_limit", .num p.1.stack_limit),
        ("fragile_score", .num p.1.fragile_score),
        ("upright01", .num p.1.upright01)] })

/-- The default item scheme (all eight dimensions). -/
def defaultItemScheme : List ItemDim :=
  [.cold, .weight, .v_eff, .liquid, .stack_limit, .fragile, .upright, .item_id]

/-! ## Association-list lemmas (Python dict semantics) -/

theorem lookup_updateA_self {β : Type} (l : List (String × β)) (k : String)
    (f : β → β) : (updateA l k f).lookup k = (l.lookup k).map f := by
  induction l with
  | nil => rfl
  | cons p l ih =>
    simp only [updateA, List.map_cons]
    by_cases h : p.1 = k
    · rw [if_pos h]
      have hk : (k == p.1) = true := by simp [h]
      simp [List.lookup, hk]
    · rw [if_neg h]
      have hk : (k == p.1) = false := by
        simp only [beq_eq_false_iff_ne, ne_eq]
        exact fun he => h he.symm
      simp only [List.lookup, hk]
      simpa [updateA] using ih

theorem lookup_updateA_ne {β : Type} (l : List (String × β)) (k k' : String)
    (f : β → β) (h : k' ≠ k) :
    (updateA l k f).lookup k' = l.lookup k' := by
  induction l with
  | nil => rfl
  | cons p l ih =>
    simp only [updateA, List.map_cons]
    by_cases hp : p.1 = k
    · rw [if_pos hp]
      have hk : (k' == p.1) = false := by
        simp only [beq_eq_false_iff_ne, ne_eq]
        intro he
        exact h (he.trans hp)
      simp only [List.lookup, hk]
      simpa [updateA] using ih
    · rw [if_neg hp]
      simp only [List.lookup]
      by_cases hk : (k' == p.1) = true
      · simp [hk]
      · simp only [Bool.not_eq_true] at hk
        simp only [hk]
        simpa [updateA] using ih

theorem lookup_append {β : Type} (l₁ l₂ : List (String × β)) (k : String) :
    (l₁ ++ l₂).lookup k =
      match l₁.lookup k with
      | some v => some v
      | none => l₂.lookup k := by
  induction l₁ with
  | nil => simp [List.lookup]
  | cons p l ih =>
    simp only [List.cons_append, List.lookup]
    by_cases hk : (k == p.1) = true
    · simp [hk]
    · simp only [Bool.not_eq_true] at hk
      simp only [hk]
      exact ih

/-! ## Claim theorems -/

/-- C9: every `Truck` residual accessor is clamped at zero — even when
the used quantities exceed the capacities — and `residual_cold_m3` is
identically zero on a DRY truck. -/
theorem truck_residuals_nonneg (t : Truck) :
    0 ≤ t.residual_volume_m3 ∧ 0 ≤ t.residual_cold_m3 ∧
      0 ≤ t.residual_weight_kg ∧
      (t.type = TruckType.DRY → t.residual_cold_m3 = 0) := by
  refine ⟨?_, ?_, ?_, ?_⟩
  · unfold Truck.residual_volume_m3
    exact le_max_left 0 _
  · unfold Truck.residual_cold_m3
    by_cases h : t.type = TruckType.DRY
    · simp [h]
    · simp only [if_neg h]
      exact le_max_left 0 _
  · unfold Truck.residual_weight_kg
    exact le_max_left 0 _
  · intro h
    simp [Truck.residual_cold_m3, h]

/-- A DRY truck whose runtime usage exceeds every capacity. -/
def overloadedDryTruck : Truck :=
  { truck_id := "D9", type := .DRY, total_capacity_m3 := 10,
    cold_capacity_m3 := 0, weight_limit_kg := 100, fixed_cost := 1,
    min_utilization := 0, reserve_fraction := 1/10,
    used_volume_m3 := 50, used_cold_m3 := 7, used_weight_kg := 500 }

/-- C9 witness: the clamps hold on a concretely overloaded DRY truck,
whose cold residual is zero despite `used_cold_m3 = 7`. -/
theorem truck_residuals_nonneg_witness :
    (0 ≤ overloadedDryTruck.residual_volume_m3 ∧
      0 ≤ overloadedDryTruck.residual_cold_m3 ∧
      0 ≤ overloadedDryTruck.residual_weight_kg ∧
      (overloadedDryTruck.type = TruckType.DRY →
        overloadedDryTruck.residual_cold_m3 = 0)) ∧
    overloadedDryTruck.residual_cold_m3 = 0 :=
  ⟨truck_residuals_nonneg overloadedDryTruck,
    (truck_residuals_nonneg overloadedDryTruck).2.2.2 rfl⟩

/-- C10: a second `on_departure` on an already-departed truck is a
no-op returning the tracker unchanged (so the snapshot and departure
time recorded by the first call are preserved), and `on_departure`
raises (`KeyError`) for a truck id never registered via
`open_truck`. -/
theorem on_departure_idempotent_and_raises :
    (∀ (t : DayTracker) (id : String) (w w' : Option String)
        (t' : DayTracker), t.on_departure id w = .ok t' →
        t'.on_departure id w' = .ok t') ∧
    (∀ (t : DayTracker) (id : String) (w : Option String),
      t.trucks.lookup id = none →
        t.on_departure id w = .error
          ("Truck '" ++ id ++ "' not registered (call open_truck first).")) := by
  constructor
  · intro t id w w' t' h
    cases hlk : t.trucks.lookup id with
    | none =>
      simp only [DayTracker.on_departure, hlk] at h
      simp at h
    | some led =>
      simp only [DayTracker.on_departure, hlk] at h
      by_cases hdep : led.departed = true
      · rw [if_pos hdep] at h
        cases h
        simp only [DayTracker.on_departure, hlk, if_pos hdep]
      · rw [if_neg hdep] at h
        cases h
        simp [DayTracker.on_departure, lookup_updateA_self, hlk]
  · intro t id w h
    simp [DayTracker.on_departure, h]

/-- A one-truck tracker used to exercise the departure path. -/
def depTracker : DayTracker :=
  { trucks := [("T1",
      { is_reefer := true, Q := 10, Q_cold := 5, W := 1000,
        fixed_cost := 500, tau_min := 3/5, used_v_eff := 6, used_q := 11/2,
        used_q_cold := 3, used_w := 400 })],
    opened_trucks := ["T1"], c_total := 500 }

/-- C10 witness: departing `T1` once succeeds, the repeat call is a
no-op, and departing the unknown id `T9` raises. -/
theorem on_departure_idempotent_and_raises_witness :
    (∀ t', depTracker.on_departure "T1" (some "18:00") = .ok t' →
      t'.on_departure "T1" none = .ok t') ∧
    depTracker.on_departure "T9" none = .error
      "Truck 'T9' not registered (call open_truck first)." :=
  ⟨fun t' h => on_departure_idempotent_and_raises.1 depTracker "T1"
      (some "18:00") none t' h,
    on_departure_idempotent_and_raises.2 depTracker "T9" none (by rfl)⟩

/-- C4 (amended): a second `open_truck` with the same id raises
`ValueError` whatever the specs — identical or different — while the
first call accumulated the fixed cost exactly once. -/
theorem open_truck_duplicate_always_raises
    (t : DayTracker) (id : String) (a b : TruckSpecs) (t' : DayTracker)
    (h : t.open_truck id a = .ok t') :
    t'.open_truck id b = .error ("Truck '" ++ id ++ "' already opened.") ∧
    t'.c_total = t.c_total + a.fixed_cost := by
  by_cases hlk : (t.trucks.lookup id).isSome
  · simp only [DayTracker.open_truck, if_pos hlk] at h
    simp at h
  · have hnone : t.trucks.lookup id = none :=
      Option.not_isSome_iff_eq_none.mp hlk
    simp only [DayTracker.open_truck, if_neg hlk] at h
    cases h
    refine ⟨?_, rfl⟩
    simp [DayTracker.open_truck, lookup_append, hnone, List.lookup]

/-- Reefer specs used by the duplicate-registration scenarios. -/
def spec0 : TruckSpecs :=
  { is_reefer := true, Q := 10, Q_cold := 5, W := 1000, fixed_cost := 500,
    tau_min := 3/5 }

/-- C4 counterexample: calling `open_truck` twice with byte-identical
specs does **not** behave like calling it once — the second call
raises `ValueError`. -/
theorem open_truck_twice_identical_specs_raises :
    (({} : DayTracker).open_truck "T1" spec0).bind
        (fun t => t.open_truck "T1" spec0)
      = .error "Truck 'T1' already opened." := by rfl

/-- The tracker produced by the first successful registration. -/
def wTrack4 : DayTracker :=
  { trucks := [("T1",
      { is_reefer := true, Q := 10, Q_cold := 5, W := 1000,
        fixed_cost := 500, tau_min := 3/5 })],
    opened_trucks := ["T1"], c_total := 0 + 500 }

/-- C4 witness: instantiating the amended claim on the empty tracker
with identical specs on both calls. -/
theorem open_truck_duplicate_always_raises_witness :
    wTrack4.open_truck "T1" spec0
        = .error ("Truck '" ++ "T1" ++ "' already opened.") ∧
    wTrack4.c_total = ({} : DayTracker).c_total + spec0.fixed_cost :=
  open_truck_duplicate_always_raises {} "T1" spec0 spec0 wTrack4 (by rfl)

/-! ### C1 — cold-in-dry feasibility (scenario S4) -/

/-- Order aggregates of `{Milk × 40, Water × 3}` (scenario S4):
`q_cold = 40·0.0021`, `v_eff = 40·0.0021·1.05 + 3·0.022`,
`w = 40·1.05 + 3·9.6`. -/
def milkWaterOrder : OrderFeat :=
  { effective_volume_m3 := 0.1542, cold_volume_m3 := 0.084,
    weight_kg := 70.8 }

/-- The open dry truck D1 of scenario S4 (empty, cooler on policy). -/
def dryTruckD1 : Truck :=
  { truck_id := "D1", type := .DRY, total_capacity_m3 := 20,
    cold_capacity_m3 := 0, weight_limit_kg := 7000, fixed_cost := 380,
    min_utilization := 0.75, reserve_fraction := 0.05,
    cooler_capacity_m3 := 0.40 }

def s4State : PlannerState :=
  { trucks := [("D1", dryTruckD1)], openIds := ["D1"],
    orders := [("O_B_MIX", milkWaterOrder)] }

def s4Policy : SimplePolicy :=
  { allow_cold_in_dry_B := true, per_truck_cooler_m3 := 0.40 }

/-- C1 (code bug): in scenario S4 the order's effective volume and
weight fit D1's residuals and `cooler_feasible` holds, yet
`fits_order_on_truck` is false — the cold gate compares `q_i_cold`
against `remaining_cold_m3`, which is 0 on every DRY truck — so
`choose_best_open_dry` cannot select D1 (or any dry truck) for a cold
order. -/
theorem fits_rejects_cold_on_dry_despite_cooler :
    milkWaterOrder.effective_volume_m3 ≤
      (s4State.truck_residuals "D1").remaining_volume_m3 ∧
    milkWaterOrder.weight_kg ≤
      (s4State.truck_residuals "D1").remaining_weight_kg ∧
    cooler_feasible s4State "O_B_MIX" "D1" s4Policy = true ∧
    fits_order_on_truck s4State "O_B_MIX" "D1" s4Policy = false ∧
    choose_best_open_dry s4State s4Policy "O_B_MIX" = none := by
  refine ⟨?_, ?_, ?_, ?_, ?_⟩
  · norm_num [milkWaterOrder, s4State, dryTruckD1, PlannerState.truck_residuals,
      Truck.residual_volume_m3, List.lookup]
  · norm_num [milkWaterOrder, s4State, dryTruckD1, PlannerState.truck_residuals,
      Truck.residual_weight_kg, List.lookup]
  · norm_num [cooler_feasible, s4Policy, s4State, PlannerState.truck_feat_type,
      PlannerState.type_str, PlannerState.order_features, milkWaterOrder,
      dryTruckD1, List.lookup]
    decide
  · norm_num [fits_order_on_truck, s4Policy, s4State, PlannerState.order_features,
      PlannerState.truck_residuals, Truck.residual_volume_m3,
      Truck.residual_cold_m3, Truck.residual_weight_kg, milkWaterOrder,
      dryTruckD1, List.lookup]
  · norm_num [choose_best_open_dry, dryCandidates, chooseLoop, bestStep,
      PlannerState.open_trucks, PlannerState.type_str, fits_order_on_truck,
      PlannerState.order_features, PlannerState.truck_residuals,
      Truck.residual_volume_m3, Truck.residual_cold_m3,
      Truck.residual_weight_kg, s4State, s4Policy, milkWaterOrder, dryTruckD1,
      List.lookup, List.filterMap, List.foldl]

/-! ### C2 — packing-zone assignment of ranked lines -/

/-- A HAZARDOUS catalogue item. -/
def bleach : Item :=
  { item_id := "I_BLEACH", name := "Bleach", category_cold := false,
    unit_weight_kg := 2, unit_volume_m3 := 0.003, fragility := .REGULAR,
    max_stack_load_kg := 10, is_liquid := true, upright_only := false,
    separation_tag := .HAZARDOUS }

/-- A cold catalogue item (Milk of the test fixtures). -/
def milk : Item :=
  { item_id := "I_MILK", name := "Milk", category_cold := true,
    unit_weight_kg := 1.05, unit_volume_m3 := 0.0021,
    fragility := .DELICATE, max_stack_load_kg := 5, is_liquid := true,
    upright_only := true, separation_tag := .FOOD,
    padding_factor := 0.05 }

/-- A state whose pre-sorted item sequence for `O_HAZ` is the item
ranker's output on one milk line and one bleach line. -/
def hazState : PlannerState :=
  { trucks := [], openIds := [], orders := [],
    sortedItems :=
      [("O_HAZ", rank_items defaultItemScheme [(milk, 1), (bleach, 2)])] }

/-- C2 (code bug): on an order holding a HAZARDOUS line and a cold
line, the packing plan zones **both** lines `ambient` (`pos` does equal
the ranked index).  `rank_items` emits features without the `sep_tag`
and `q_cold` keys that `SimplePackingPolicy.plan` reads, so the zone
rule always sees the defaults `"non_food"` / `0`. -/
theorem packing_zones_hazardous_and_cold_ambient :
    bleach.separation_tag = SeparationTag.HAZARDOUS ∧
    milk.category_cold = true ∧
    ((SimplePackingPolicy.plan hazState "T1" "O_HAZ").map
        (fun lp => lp.placements.map (fun p => (p.1, p.2.2.zone, p.2.2.pos))))
      = some [("I_MILK", "ambient", 0), ("I_BLEACH", "ambient", 1)] := by
  refine ⟨rfl, rfl, ?_⟩
  have hrank : rank_items defaultItemScheme [(milk, 1), (bleach, 2)]
      = [⟨"I_MILK", 1, [("cold01", .num 1), ("w_ij", .num 1.05),
            ("v_ij_eff", .num 0.002205), ("liquid01", .num 1),
            ("stack_limit", .num 5), ("fragile_score", .num 1),
            ("upright01", .num 1)]⟩,
         ⟨"I_BLEACH", 2, [("cold01", .num 0), ("w_ij", .num 4),
            ("v_ij_eff", .num 0.006), ("liquid01", .num 1),
            ("stack_limit", .num 10), ("fragile_score", .num 0),
            ("upright01", .num 0)]⟩] := by
    norm_num [rank_items, itemRow, make_item_sort_key, defaultItemScheme,
      milk, bleach, Item.effective_unit_volume, fragileScore,
      List.insertionSort, List.orderedInsert, keyedLe, lexLtB, KeyPart.ltb]
  simp only [SimplePackingPolicy.plan, hazState, PlannerState.sorted_items,
    List.lookup, beq_self_eq_true, Option.getD_some, hrank]
  rfl

/-! ### C5 — best-fit reefer selection and tie-breaking -/

/-- C5 (amended): a truck returned by `choose_best_open_reefer` attains
the lexicographically minimal leftover key among the candidates the
loop traverses (open reefers passing `fits` with a defined key), and a
tie between equal keys is won by the candidate encountered **first in
the open-truck iteration order** — the order of the underlying Python
set, which coincides with ascending truck id only when that iteration
happens to be ascending. -/
theorem choose_best_open_reefer_min_key (s : PlannerState)
    (pol : SimplePolicy) (oid tid : String) (scheme : List ReeferDim)
    (h : choose_best_open_reefer s pol oid scheme = some tid) :
    ∃ k pre post,
      reeferCandidates s pol oid scheme = pre ++ (k, tid) :: post ∧
      (∀ p ∈ reeferCandidates s pol oid scheme, lexLtB qLtb p.1 k = false) ∧
      (∀ p ∈ pre, lexLtB qLtb k p.1 = true) := by
  unfold choose_best_open_reefer at h
  rw [chooseLoop_eq_firstMin qLtb qLtb_asymm qLtb_trans qLtb_conn] at h
  cases hfm : firstMin qLtb (reeferCandidates s pol oid scheme) with
  | none => rw [hfm] at h; simp at h
  | some p =>
    rw [hfm] at h
    obtain ⟨⟨pre, post, hsplit, hpre⟩, hmin⟩ :=
      firstMin_spec qLtb qLtb_asymm qLtb_trans qLtb_conn _ p hfm
    obtain ⟨pk, pt⟩ := p
    simp only [Option.map_some'] at h
    cases h
    exact ⟨pk, pre, post, hsplit, hmin, hpre⟩

/-- Two identically specified open reefers. -/
def reeferR1 : Truck :=
  { truck_id := "R1", type := .REEFER, total_capacity_m3 := 24,
    cold_capacity_m3 := 12, weight_limit_kg := 9500, fixed_cost := 500,
    min_utilization := 0.6, reserve_fraction := 0 }

def reeferR2 : Truck := { reeferR1 with truck_id := "R2" }

def coldOrder1 : OrderFeat :=
  { effective_volume_m3 := 1, cold_volume_m3 := 1, weight_kg := 10 }

/-- Both reefers open; the Python set happens to iterate `R2` before
`R1` (set iteration order over string ids is unspecified). -/
def tieState : PlannerState :=
  { trucks := [("R1", reeferR1), ("R2", reeferR2)],
    openIds := ["R2", "R1"], orders := [("O1", coldOrder1)] }

theorem tieState_lk1 : tieState.trucks.lookup "R1" = some reeferR1 := rfl

theorem tieState_lk2 : tieState.trucks.lookup "R2" = some reeferR2 := rfl

theorem tieState_lko : tieState.orders.lookup "O1" = some coldOrder1 := rfl

theorem tieState_res1 : tieState.truck_residuals "R1" = ⟨24, 12, 9500⟩ := by
  simp only [PlannerState.truck_residuals, tieState_lk1]
  norm_num [reeferR1, Truck.residual_volume_m3, Truck.residual_cold_m3,
    Truck.residual_weight_kg]
  all_goals decide

theorem tieState_res2 : tieState.truck_residuals "R2" = ⟨24, 12, 9500⟩ := by
  simp only [PlannerState.truck_residuals, tieState_lk2]
  norm_num [reeferR2, reeferR1, Truck.residual_volume_m3,
    Truck.residual_cold_m3, Truck.residual_weight_kg]
  all_goals decide

theorem tieState_feat : tieState.order_features "O1" = coldOrder1 := by
  simp only [PlannerState.order_features, tieState_lko, Option.getD_some]

theorem tieState_fit1 : fits_order_on_truck tieState "O1" "R1" {} = true := by
  norm_num [fits_order_on_truck, tieState_res1, tieState_feat, coldOrder1]

theorem tieState_fit2 : fits_order_on_truck tieState "O1" "R2" {} = true := by
  norm_num [fits_order_on_truck, tieState_res2, tieState_feat, coldOrder1]

theorem tieState_key1 :
    residual_key tieState "O1" "R1" [.cold, .volume, .weight]
      = some [11, 23, 9490] := by
  norm_num [residual_key, tieState_res1, tieState_feat, coldOrder1, List.all]

theorem tieState_key2 :
    residual_key tieState "O1" "R2" [.cold, .volume, .weight]
      = some [11, 23, 9490] := by
  norm_num [residual_key, tieState_res2, tieState_feat, coldOrder1, List.all]

theorem tieState_open :
    tieState.open_trucks "reefer" = ["R2", "R1"] := rfl

theorem tieState_cands :
    reeferCandidates tieState {} "O1" [.cold, .volume, .weight]
      = [([11, 23, 9490], "R2"), ([11, 23, 9490], "R1")] := by
  simp [reeferCandidates, tieState_open, tieState_fit1, tieState_fit2,
    tieState_key1, tieState_key2, List.filterMap]

theorem tieState_choose :
    choose_best_open_reefer tieState {} "O1" = some "R2" := by
  rw [show choose_best_open_reefer tieState {} "O1"
      = (chooseLoop qLtb (reeferCandidates tieState {} "O1"
          [.cold, .volume, .weight])).map Prod.snd from rfl,
    tieState_cands]
  norm_num [chooseLoop, bestStep, List.foldl, lexLtB, qLtb]

/-- C5 counterexample: R1 and R2 carry **equal** leftover keys and both
fit, yet the chooser returns R2 — the first truck in the set's
iteration order — not the smaller id R1 the claim promises. -/
theorem choose_best_open_reefer_tie_not_smallest_id :
    residual_key tieState "O1" "R1" [.cold, .volume, .weight]
      = residual_key tieState "O1" "R2" [.cold, .volume, .weight] ∧
    fits_order_on_truck tieState "O1" "R1" {} = true ∧
    fits_order_on_truck tieState "O1" "R2" {} = true ∧
    choose_best_open_reefer tieState {} "O1" = some "R2" :=
  ⟨tieState_key1.trans tieState_key2.symm, tieState_fit1, tieState_fit2,
    tieState_choose⟩

/-- C5 witness: the amended minimality/tie statement instantiated on
the concrete tie scenario. -/
theorem choose_best_open_reefer_min_key_witness :
    ∃ k pre post,
      reeferCandidates tieState {} "O1" [.cold, .volume, .weight]
        = pre ++ (k, "R2") :: post ∧
      (∀ p ∈ reeferCandidates tieState {} "O1" [.cold, .volume, .weight],
        lexLtB qLtb p.1 k = false) ∧
      (∀ p ∈ pre, lexLtB qLtb k p.1 = true) :=
  choose_best_open_reefer_min_key tieState {} "O1" "R2"
    [.cold, .volume, .weight] tieState_choose

/-! ### C3 — opening a new DRY truck for bucket C -/

/-- The candidate list `maybe_open_new_dry` scans:
available-but-not-open DRY trucks, ascending. -/
def newDryCandidates (s : PlannerState) : List String :=
  sortedStrings ((s.all_available_trucks "dry").filter
    (fun tid => ¬ tid ∈ s.open_trucks "dry"))

/-- The acceptance test `maybe_open_new_dry` applies to each candidate:
`fits`, plus `cooler_feasible` when the order carries cold volume. -/
def newDryFeasible (s : PlannerState) (pol : SimplePolicy)
    (oid tid : String) : Bool :=
  fits_order_on_truck s oid tid pol &&
    (!(decide (0 < (s.order_features oid).cold_volume_m3)) ||
      cooler_feasible s oid tid pol)

theorem maybe_open_new_dry_eq (s : PlannerState) (pol : SimplePolicy)
    (oid : String) :
    maybe_open_new_dry s pol oid
      = if pol.allow_open_new_dry_B then
          (newDryCandidates s).find? (newDryFeasible s pol oid)
        else none := by
  unfold maybe_open_new_dry newDryCandidates newDryFeasible
  by_cases h : pol.allow_open_new_dry_B <;> simp [h]

/-- `List.find?` returns the first element satisfying the predicate. -/
theorem find?_eq_some_first {α : Type} (p : α → Bool) :
    ∀ (l : List α) (a : α), l.find? p = some a ↔
      ∃ pre post, l = pre ++ a :: post ∧
        (∀ x ∈ pre, p x = false) ∧ p a = true
  | [], a => by simp
  | x :: l, a => by
    by_cases hx : p x = true
    · rw [List.find?_cons_of_pos _ hx]
      constructor
      · intro h
        cases h
        exact ⟨[], l, rfl, by simp, hx⟩
      · rintro ⟨pre, post, hsplit, hpre, hpa⟩
        cases pre with
        | nil =>
          simp only [List.nil_append, List.cons.injEq] at hsplit
          rw [hsplit.1]
        | cons y pre =>
          simp only [List.cons_append, List.cons.injEq] at hsplit
          have : p x = false := hsplit.1 ▸ hpre y (by simp)
          rw [this] at hx
          cases hx
    · have hx' : p x = false := by simpa using hx
      rw [List.find?_cons_of_neg _ (by simpa using hx)]
      rw [find?_eq_some_first p l a]
      constructor
      · rintro ⟨pre, post, hsplit, hpre, hpa⟩
        refine ⟨x :: pre, post, by rw [hsplit, List.cons_append], ?_, hpa⟩
        intro y hy
        rcases List.mem_cons.mp hy with h | h
        · rw [h]; exact hx'
        · exact hpre y h
      · rintro ⟨pre, post, hsplit, hpre, hpa⟩
        cases pre with
        | nil =>
          simp only [List.nil_append, List.cons.injEq] at hsplit
          rw [← hsplit.1] at hpa
          rw [hpa] at hx'
          cases hx'
        | cons y pre =>
          simp only [List.cons_append, List.cons.injEq] at hsplit
          exact ⟨pre, post, hsplit.2, fun z hz => hpre z (by simp [hz]), hpa⟩

/-- C3 (amended): when no open DRY truck fits a bucket-C order, the
placer assigns a newly opened DRY truck `tid` **iff** the policy flag
`allow_open_new_dry_B` — the same flag `maybe_open_new_dry` reads for
bucket B, not `allow_open_new_dry_C` — is set and `tid` is the first
truck of the ascending available-but-not-open DRY scan that passes the
feasibility test; with that flag false the order fails and no truck is
opened. -/
theorem assign_bucket_c_new_dry_gate (s : PlannerState)
    (pol : SimplePolicy) (oid tid : String) (dry_scheme : List DryDim)
    (hnone : choose_best_open_dry s pol oid dry_scheme = none) :
    ((assign_bucket_c_order s pol oid dry_scheme).map (fun d => d.truck_id)
        = some tid)
      ↔ (pol.allow_open_new_dry_B = true ∧
          ∃ pre post, newDryCandidates s = pre ++ tid :: post ∧
            (∀ t ∈ pre, newDryFeasible s pol oid t = false) ∧
            newDryFeasible s pol oid tid = true) := by
  have hassign : (assign_bucket_c_order s pol oid dry_scheme).map
      (fun d => d.truck_id) = maybe_open_new_dry s pol oid := by
    unfold assign_bucket_c_order
    rw [hnone]
    cases hm : maybe_open_new_dry s pol oid <;>
      simp [hm, SimplePackingPolicy.plan]
  rw [hassign, maybe_open_new_dry_eq]
  by_cases hflag : pol.allow_open_new_dry_B
  · rw [if_pos hflag, find?_eq_some_first]
    simp [hflag]
  · rw [if_neg hflag]
    simp [hflag]

/-- The S5 trucks: D1 open but volume-full, D2 available unopened. -/
def dryD1Full : Truck :=
  { truck_id := "D1", type := .DRY, total_capacity_m3 := 20,
    cold_capacity_m3 := 0, weight_limit_kg := 7000, fixed_cost := 380,
    min_utilization := 0.75, reserve_fraction := 0.05,
    used_volume_m3 := 19 }

def dryD2 : Truck :=
  { truck_id := "D2", type := .DRY, total_capacity_m3 := 26,
    cold_capacity_m3 := 0, weight_limit_kg := 10000, fixed_cost := 460,
    min_utilization := 0.75, reserve_fraction := 0.05 }

def dryOnlyOrder : OrderFeat :=
  { effective_volume_m3 := 1, cold_volume_m3 := 0, weight_kg := 10 }

def s5State : PlannerState :=
  { trucks := [("D1", dryD1Full), ("D2", dryD2)], openIds := ["D1"],
    orders := [("O_C", dryOnlyOrder)] }

/-- Only the C-named flag is set. -/
def s5Policy : SimplePolicy :=
  { allow_open_new_dry_C := true, allow_open_new_dry_B := false }

theorem s5_lk1 : s5State.trucks.lookup "D1" = some dryD1Full := rfl

theorem s5_lk2 : s5State.trucks.lookup "D2" = some dryD2 := rfl

theorem s5_lko : s5State.orders.lookup "O_C" = some dryOnlyOrder := rfl

theorem s5_feat : s5State.order_features "O_C" = dryOnlyOrder := by
  simp only [PlannerState.order_features, s5_lko, Option.getD_some]

theorem s5_res1 : s5State.truck_residuals "D1" = ⟨0, 0, 7000⟩ := by
  simp only [PlannerState.truck_residuals, s5_lk1]
  norm_num [dryD1Full, Truck.residual_volume_m3, Truck.residual_cold_m3,
    Truck.residual_weight_kg]

theorem s5_res2 : s5State.truck_residuals "D2" = ⟨24.7, 0, 10000⟩ := by
  simp only [PlannerState.truck_residuals, s5_lk2]
  norm_num [dryD2, Truck.residual_volume_m3, Truck.residual_cold_m3,
    Truck.residual_weight_kg]

theorem s5_fit1 : fits_order_on_truck s5State "O_C" "D1" s5Policy = false := by
  norm_num [fits_order_on_truck, s5_res1, s5_feat, dryOnlyOrder]

theorem s5_fit2 : fits_order_on_truck s5State "O_C" "D2" s5Policy = true := by
  norm_num [fits_order_on_truck, s5_res2, s5_feat, dryOnlyOrder]

theorem s5_choose : choose_best_open_dry s5State s5Policy "O_C" = none := by
  rw [show choose_best_open_dry s5State s5Policy "O_C"
      = (chooseLoop qLtb (dryCandidates s5State s5Policy "O_C"
          [.volume, .weight])).map Prod.snd from rfl]
  have hc : dryCandidates s5State s5Policy "O_C" [.volume, .weight] = [] := by
    simp [dryCandidates, show s5State.open_trucks "dry" = ["D1"] from rfl,
      s5_fit1, List.filterMap]
  rw [hc]
  rfl

/-- C3 counterexample (scenario S5 with only the C-flag set): D1 is
volume-full, D2 is available and passes `fits`, and
`allow_open_new_dry_C` is set — yet the bucket-C placer fails and no
truck is opened, because `maybe_open_new_dry` consults
`allow_open_new_dry_B` only. -/
theorem bucket_c_ignores_flag_C :
    s5Policy.allow_open_new_dry_C = true ∧
    fits_order_on_truck s5State "O_C" "D2" s5Policy = true ∧
    choose_best_open_dry s5State s5Policy "O_C" = none ∧
    assign_bucket_c_order s5State s5Policy "O_C" = none := by
  refine ⟨rfl, s5_fit2, s5_choose, ?_⟩
  unfold assign_bucket_c_order
  rw [s5_choose]
  have hm : maybe_open_new_dry s5State s5Policy "O_C" = none := by
    rw [maybe_open_new_dry_eq]
    simp [s5Policy]
  rw [hm]

/-- The S5 policy with the flag the code actually reads. -/
def s5PolicyB : SimplePolicy := { allow_open_new_dry_B := true }

theorem s5B_fit2 : fits_order_on_truck s5State "O_C" "D2" s5PolicyB = true := by
  norm_num [fits_order_on_truck, s5_res2, s5_feat, dryOnlyOrder]

theorem s5B_fit1 : fits_order_on_truck s5State "O_C" "D1" s5PolicyB = false := by
  norm_num [fits_order_on_truck, s5_res1, s5_feat, dryOnlyOrder]

theorem s5B_choose : choose_best_open_dry s5State s5PolicyB "O_C" = none := by
  rw [show choose_best_open_dry s5State s5PolicyB "O_C"
      = (chooseLoop qLtb (dryCandidates s5State s5PolicyB "O_C"
          [.volume, .weight])).map Prod.snd from rfl]
  have hc : dryCandidates s5State s5PolicyB "O_C" [.volume, .weight] = [] := by
    simp [dryCandidates, show s5State.open_trucks "dry" = ["D1"] from rfl,
      s5B_fit1, List.filterMap]
  rw [hc]
  rfl

theorem s5B_feasible : newDryFeasible s5State s5PolicyB "O_C" "D2" = true := by
  simp [newDryFeasible, s5B_fit2, s5_feat, dryOnlyOrder]

/-- C3 witness: with `allow_open_new_dry_B` set the amended claim
yields the assignment of D2 on the concrete S5 scenario. -/
theorem assign_bucket_c_new_dry_gate_witness :
    (assign_bucket_c_order s5State s5PolicyB "O_C").map (fun d => d.truck_id)
      = some "D2" :=
  (assign_bucket_c_new_dry_gate s5State s5PolicyB "O_C" "D2"
      [.volume, .weight] s5B_choose).mpr
    ⟨rfl, [], [], rfl, by simp, s5B_feasible⟩

/-! ### C6 — bucket routing and failure recording -/

/-- `on_failure` with `due_missed=False` leaves the order marked not
placed, carrying the given reason. -/
theorem on_failure_lookup (t : DayTracker) (oid : String) (vip : Bool)
    (reason : String) :
    ∃ rec, ((t.on_failure oid vip false none reason).orders.lookup oid)
        = some rec ∧ rec.placed = false ∧ rec.reason = some reason := by
  cases hlk : t.orders.lookup oid with
  | none =>
    refine ⟨⟨0, 0, 0, 0, vip, 0, none, none, false, some reason⟩, ?_, rfl, rfl⟩
    simp only [DayTracker.on_failure, hlk, Bool.false_eq_true, if_false]
    rw [lookup_append, hlk]
    simp [List.lookup]
  | some r =>
    refine ⟨{ r with
        placed := false, reason := some reason,
        is_vip := vip || r.is_vip }, ?_, rfl, rfl⟩
    simp only [DayTracker.on_failure, hlk, Bool.false_eq_true, if_false]
    rw [lookup_updateA_self, hlk]
    rfl

/-- C6: whenever the bucket placer returns no decision for an order
whose Phase-2 feature view exposes the cold fraction `α`, `run_one`
records the order as failed with reason
`infeasible_in_bucket_<X>`, where `X` is `C` when `α ≤ 1e-12`, else `A`
when `α ≥ α_threshold`, else `B`. -/
theorem run_one_failure_bucket (pol : SimplePolicy) (s : PlannerState)
    (tr : DayTracker) (oid : String) (f : OrderFeat) (α : ℚ)
    (hf : s.orders.lookup oid = some f)
    (hα : f.cold_fraction = some α)
    (hdec : (run_one pol s tr oid).1 = none) :
    ∃ rec, ((run_one pol s tr oid).2.2.orders.lookup oid) = some rec ∧
      rec.placed = false ∧
      rec.reason = some ("infeasible_in_bucket_" ++
        (if α ≤ 1e-12 then "C"
         else if pol.alpha_threshold ≤ α then "A" else "B")) := by
  have hfeat : s.order_features oid = f := by
    simp [PlannerState.order_features, hf]
  simp only [run_one] at hdec ⊢
  rw [hfeat] at hdec ⊢
  cases hX : dispatch_bucket pol s oid
      (determine_bucket (f.cold_fraction.getD 0) pol.alpha_threshold)
      [.cold, .volume, .weight] [.cold, .volume, .weight]
      [.volume, .weight] [.volume, .weight] with
  | some d =>
    rw [hX] at hdec
    simp at hdec
  | none =>
    have hb : determine_bucket (f.cold_fraction.getD 0) pol.alpha_threshold
        = (if α ≤ 1e-12 then "C"
           else if pol.alpha_threshold ≤ α then "A" else "B") := by
      rw [hα, Option.getD_some]
      rfl
    have hrec := on_failure_lookup tr oid (f.vip.getD false)
      ("infeasible_in_bucket_" ++
        determine_bucket (f.cold_fraction.getD 0) pol.alpha_threshold)
    rw [hb] at hrec ⊢
    exact hrec

/-- A Phase-2 feature view exposing cold fraction and VIP flag. -/
def wFeat : OrderFeat :=
  { effective_volume_m3 := 1, cold_volume_m3 := 1/2, weight_kg := 10,
    cold_fraction := some (1/2), vip := some false }

/-- No trucks at all: every placer fails. -/
def wState : PlannerState :=
  { trucks := [], openIds := [], orders := [("O1", wFeat)] }

def wPol : SimplePolicy := { alpha_threshold := 1/10 }

/-- C6 witness: with `α = 1/2 ≥ 0.1` the order lands in bucket A, no
reefer exists, and the failure is recorded as
`infeasible_in_bucket_A`. -/
theorem run_one_failure_bucket_witness :
    ∃ rec,
      ((run_one wPol wState ({} : DayTracker) "O1").2.2.orders.lookup "O1")
        = some rec ∧ rec.placed = false ∧
      rec.reason = some ("infeasible_in_bucket_" ++
        (if (1/2 : ℚ) ≤ 1e-12 then "C"
         else if wPol.alpha_threshold ≤ (1/2 : ℚ) then "A" else "B")) :=
  run_one_failure_bucket wPol wState {} "O1" wFeat (1/2) rfl rfl
    (by norm_num [run_one, dispatch_bucket, determine_bucket,
      assign_to_best_reefer, choose_best_open_reefer, reeferCandidates,
      maybe_open_new_reefer, sortedStrings, chooseLoop,
      PlannerState.open_trucks, PlannerState.all_available_trucks,
      PlannerState.order_features, wState, wPol, wFeat, List.lookup,
      List.filterMap, List.filter, List.foldl, List.insertionSort])

/-! ### C7 — day-total invariants of the tracker -/

/-- One tracker call of the open/assign/failure protocol. -/
inductive TEvent where
  | openT (truck_id : String) (sp : TruckSpecs)
  | assignT (order_id truck_id : String) (q q_cold w v_eff : ℚ)
      (is_vip : Bool) (due_met : Option Bool) (delay_min : Option ℚ)
      (cold_on_dry : Bool)
  | failT (order_id : String) (is_vip : Bool) (due_missed : Bool)
      (delay_min : Option ℚ) (reason : String)

/-- Apply one call; a raising call mutates nothing, since every raise
in the source precedes the first mutation. -/
def applyEvent (t : DayTracker) : TEvent → DayTracker
  | .openT tid sp =>
    match t.open_truck tid sp with
    | .ok t' => t'
    | .error _ => t
  | .assignT oid tid q qc w v vip dm dl cd =>
    match t.on_assign oid tid q qc w v vip dm dl cd with
    | .ok t' => t'
    | .error _ => t
  | .failT oid vip dmis dl r => t.on_failure oid vip dmis dl r

/-- A whole call sequence. -/
def runEvents (t : DayTracker) (es : List TEvent) : DayTracker :=
  es.foldl applyEvent t

/-- The order id carried by an assignment call. -/
def eventAssignId : TEvent → Option String
  | .assignT oid _ _ _ _ _ _ _ _ _ => some oid
  | _ => none

/-- The order id carried by a failure call. -/
def eventFailId : TEvent → Option String
  | .failT oid _ _ _ _ => some oid
  | _ => none

def assignIds (es : List TEvent) : List String := es.filterMap eventAssignId

def failIds (es : List TEvent) : List String := es.filterMap eventFailId

/-- Σ `fixed_cost` over the tracker's registered trucks (registration
happens only in `open_truck`, which also marks the truck opened). -/
def openedCostSum (t : DayTracker) : ℚ :=
  (t.trucks.map (fun p => p.2.fixed_cost)).sum

/-- Σ `f` over the ledger's placed orders. -/
def placedSumBy (f : OrderRec → ℚ) (t : DayTracker) : ℚ :=
  (t.orders.map (fun p => if p.2.placed then f p.2 else 0)).sum

/-- The day-total identities of the claim: `C_total` matches the
opened trucks' fixed costs and the three sums match the placed
orders. -/
def TotalsInv (t : DayTracker) : Prop :=
  t.c_total = openedCostSum t ∧
  t.sum_q = placedSumBy (fun r => r.q) t ∧
  t.sum_v_eff = placedSumBy (fun r => r.v_eff) t ∧
  t.sum_w = placedSumBy (fun r => r.w) t

/-- Every assignment id still to come is absent from the ledger. -/
def AssignFresh (t : DayTracker) (es : List TEvent) : Prop :=
  ∀ oid ∈ assignIds es, t.orders.lookup oid = none

/-- Every ledger entry under an id that will still fail is already
marked not placed. -/
def FailSafe (t : DayTracker) (es : List TEvent) : Prop :=
  ∀ oid ∈ failIds es, ∀ p ∈ t.orders, p.1 = oid → p.2.placed = false

theorem updateA_append_fresh {β : Type} (l : List (String × β)) (k : String)
    (b : β) (f : β → β) (h : l.lookup k = none) :
    updateA (l ++ [(k, b)]) k f = l ++ [(k, f b)] := by
  induction l with
  | nil => simp [updateA]
  | cons p l ih =>
    by_cases hk : (k == p.1) = true
    · rw [show (p :: l : List (String × β)) = (p.1, p.2) :: l from rfl] at h
      simp only [List.lookup, hk] at h
      exact absurd h (by simp)
    · have hlk : l.lookup k = none := by
        rw [show (p :: l : List (String × β)) = (p.1, p.2) :: l from rfl] at h
        simpa only [List.lookup, hk] using h
      have hp : ¬ p.1 = k := fun he => by simp [he] at hk
      simp only [List.cons_append, updateA, List.map_cons, if_neg hp]
      have := ih hlk
      simp only [updateA] at this
      rw [this]

theorem map_snd_updateA {β γ : Type} (l : List (String × β)) (k : String)
    (f : β → β) (g : β → γ) (h : ∀ b, g (f b) = g b) :
    (updateA l k f).map (fun p => g p.2) = l.map (fun p => g p.2) := by
  simp only [updateA, List.map_map]
  refine List.map_congr_left ?_
  intro p _
  by_cases hp : p.1 = k <;> simp [Function.comp, hp, h]

theorem sum_map_updateA (l : List (String × OrderRec)) (k : String)
    (g : OrderRec → OrderRec) (f : OrderRec → ℚ)
    (h : ∀ p ∈ l, p.1 = k →
      (if (g p.2).placed then f (g p.2) else 0)
        = (if p.2.placed then f p.2 else 0)) :
    ((updateA l k g).map (fun p => if p.2.placed then f p.2 else 0)).sum
      = (l.map (fun p => if p.2.placed then f p.2 else 0)).sum := by
  simp only [updateA, List.map_map]
  congr 1
  refine List.map_congr_left ?_
  intro p hp
  by_cases hpk : p.1 = k
  · simpa [Function.comp, hpk] using h p hp hpk
  · simp [Function.comp, hpk]

theorem mem_updateA {β : Type} (l : List (String × β)) (k : String)
    (f : β → β) (p : String × β) (hp : p ∈ updateA l k f) :
    ∃ p₀ ∈ l, p = (if p₀.1 = k then (p₀.1, f p₀.2) else p₀) := by
  obtain ⟨p₀, hp₀, he⟩ := List.mem_map.mp hp
  exact ⟨p₀, hp₀, he.symm⟩

theorem assignIds_cons_open (tid : String) (sp : TruckSpecs)
    (es : List TEvent) :
    assignIds (.openT tid sp :: es) = assignIds es := rfl

theorem assignIds_cons_assign (oid tid : String) (q qc w v : ℚ) (vip : Bool)
    (dm : Option Bool) (dl : Option ℚ) (cd : Bool) (es : List TEvent) :
    assignIds (.assignT oid tid q qc w v vip dm dl cd :: es)
      = oid :: assignIds es := rfl

theorem assignIds_cons_fail (oid : String) (vip dmis : Bool) (dl : Option ℚ)
    (r : String) (es : List TEvent) :
    assignIds (.failT oid vip dmis dl r :: es) = assignIds es := rfl

theorem failIds_cons_open (tid : String) (sp : TruckSpecs)
    (es : List TEvent) :
    failIds (.openT tid sp :: es) = failIds es := rfl

theorem failIds_cons_assign (oid tid : String) (q qc w v : ℚ) (vip : Bool)
    (dm : Option Bool) (dl : Option ℚ) (cd : Bool) (es : List TEvent) :
    failIds (.assignT oid tid q qc w v vip dm dl cd :: es) = failIds es := rfl

theorem failIds_cons_fail (oid : String) (vip dmis : Bool) (dl : Option ℚ)
    (r : String) (es : List TEvent) :
    failIds (.failT oid vip dmis dl r :: es) = oid :: failIds es := rfl

theorem lookup_append_singleton_ne {β : Type} (l : List (String × β))
    (k o : String) (b : β) (h : o ≠ k) :
    (l ++ [(k, b)]).lookup o = l.lookup o := by
  rw [lookup_append]
  cases hl : l.lookup o with
  | some v => rfl
  | none =>
    have hok : (o == k) = false := by simp [h]
    simp [List.lookup, hok]

/-- Safety of the not-placed marks is preserved by an `updateA` whose
update either clears the placed flag or keeps it. -/
theorem safe_updateA (l : List (String × OrderRec)) (k' : String)
    (g : OrderRec → OrderRec) (k : String)
    (hk : ∀ p ∈ l, p.1 = k → p.2.placed = false)
    (hg : ∀ rec, (g rec).placed = false ∨ (g rec).placed = rec.placed) :
    ∀ p ∈ updateA l k' g, p.1 = k → p.2.placed = false := by
  intro p hp hpk
  obtain ⟨p₀, hp₀, he⟩ := mem_updateA l k' g p hp
  subst he
  by_cases h0 : p₀.1 = k'
  · rw [if_pos h0] at hpk ⊢
    rcases hg p₀.2 with h | h
    · exact h
    · rw [h]
      exact hk p₀ hp₀ hpk
  · rw [if_neg h0] at hpk ⊢
    exact hk p₀ hp₀ hpk

/-- `open_truck` on a fresh id: the registered ledger and the cost
bump, spelled out. -/
theorem open_truck_ok (t : DayTracker) (tid : String) (sp : TruckSpecs)
    (h : t.trucks.lookup tid = none) :
    t.open_truck tid sp = .ok { t with
      trucks := t.trucks ++ [(tid,
        { is_reefer := sp.is_reefer, Q := sp.Q, Q_cold := sp.Q_cold,
          W := sp.W, fixed_cost := sp.fixed_cost, tau_min := sp.tau_min })],
      opened_trucks := addStr t.opened_trucks tid,
      c_total := t.c_total + sp.fixed_cost } := by
  unfold DayTracker.open_truck
  rw [if_neg (by simp [h])]

/-- `on_assign` on a registered truck and an unseen order id, spelled
out. -/
theorem on_assign_ok (t : DayTracker) (oid tid : String) (q qc w v : ℚ)
    (vip : Bool) (dm : Option Bool) (dl : Option ℚ) (cd : Bool)
    (htid : (t.trucks.lookup tid).isSome = true)
    (hord : t.orders.lookup oid = none) :
    t.on_assign oid tid q qc w v vip dm dl cd = .ok { t with
      trucks := updateA t.trucks tid (fun led =>
        { led with
          used_q := led.used_q + q, used_q_cold := led.used_q_cold + qc,
          used_w := led.used_w + w, used_v_eff := led.used_v_eff + v }),
      orders := t.orders ++ [(oid,
        { q := q, q_cold := qc, w := w, v_eff := v, is_vip := vip,
          assigned_truck_count := 1, due_met := dm, delay_min := dl,
          placed := true, reason := none })],
      sum_q := t.sum_q + q, sum_v_eff := t.sum_v_eff + v,
      sum_w := t.sum_w + w,
      n_missed_vip :=
        t.n_missed_vip + (if vip ∧ dm = some false then 1 else 0),
      n_missed_due := t.n_missed_due + (if dm = some false then 1 else 0),
      cold_on_dry_pairs :=
        if cd then addPair t.cold_on_dry_pairs (oid, tid)
        else t.cold_on_dry_pairs } := by
  unfold DayTracker.on_assign
  rw [if_neg (by simp [htid])]
  simp only [hord]
  rw [updateA_append_fresh _ _ _ _ hord]

/-- An `open_truck` call preserves the day-total identities and leaves
the order ledger alone. -/
theorem totals_openT (t : DayTracker) (tid : String) (sp : TruckSpecs)
    (hinv : TotalsInv t) :
    TotalsInv (applyEvent t (.openT tid sp)) ∧
      (applyEvent t (.openT tid sp)).orders = t.orders := by
  obtain ⟨hc, hq, hv, hw⟩ := hinv
  cases hlk : t.trucks.lookup tid with
  | some led =>
    have hx : applyEvent t (.openT tid sp) = t := by
      simp [applyEvent, DayTracker.open_truck, hlk]
    rw [hx]
    exact ⟨⟨hc, hq, hv, hw⟩, rfl⟩
  | none =>
    have hx : applyEvent t (.openT tid sp) = { t with
        trucks := t.trucks ++ [(tid,
          { is_reefer := sp.is_reefer, Q := sp.Q, Q_cold := sp.Q_cold,
            W := sp.W, fixed_cost := sp.fixed_cost, tau_min := sp.tau_min })],
        opened_trucks := addStr t.opened_trucks tid,
        c_total := t.c_total + sp.fixed_cost } := by
      simp only [applyEvent]
      rw [open_truck_ok t tid sp hlk]
    rw [hx]
    refine ⟨⟨?_, hq, hv, hw⟩, rfl⟩
    show t.c_total + sp.fixed_cost = openedCostSum _
    rw [hc]
    simp [openedCostSum, List.map_append]

/-- An `on_assign` call on an unseen order id preserves the day-total
identities; the ledger is unchanged (raising call) or extended with a
placed entry carrying exactly the assigned quantities. -/
theorem totals_assignT (t : DayTracker) (oid tid : String) (q qc w v : ℚ)
    (vip : Bool) (dm : Option Bool) (dl : Option ℚ) (cd : Bool)
    (hinv : TotalsInv t) (hord : t.orders.lookup oid = none) :
    TotalsInv (applyEvent t (.assignT oid tid q qc w v vip dm dl cd)) ∧
      ((applyEvent t (.assignT oid tid q qc w v vip dm dl cd)).orders
          = t.orders ∨
        (applyEvent t (.assignT oid tid q qc w v vip dm dl cd)).orders
          = t.orders ++ [(oid,
            { q := q, q_cold := qc, w := w, v_eff := v, is_vip := vip,
              assigned_truck_count := 1, due_met := dm, delay_min := dl,
              placed := true, reason := none })]) := by
  obtain ⟨hc, hq, hv, hw⟩ := hinv
  cases htid : (t.trucks.lookup tid).isSome with
  | true =>
    have hx : applyEvent t (.assignT oid tid q qc w v vip dm dl cd)
        = { t with
            trucks := updateA t.trucks tid (fun led =>
              { led with
                used_q := led.used_q + q,
                used_q_cold := led.used_q_cold + qc,
                used_w := led.used_w + w,
                used_v_eff := led.used_v_eff + v }),
            orders := t.orders ++ [(oid,
              { q := q, q_cold := qc, w := w, v_eff := v, is_vip := vip,
                assigned_truck_count := 1, due_met := dm, delay_min := dl,
                placed := true, reason := none })],
            sum_q := t.sum_q + q, sum_v_eff := t.sum_v_eff + v,
            sum_w := t.sum_w + w,
            n_missed_vip :=
              t.n_missed_vip + (if vip ∧ dm = some false then 1 else 0),
            n_missed_due :=
              t.n_missed_due + (if dm = some false then 1 else 0),
            cold_on_dry_pairs :=
              if cd then addPair t.cold_on_dry_pairs (oid, tid)
              else t.cold_on_dry_pairs } := by
      simp only [applyEvent]
      rw [on_assign_ok t oid tid q qc w v vip dm dl cd htid hord]
    rw [hx]
    refine ⟨⟨?_, ?_, ?_, ?_⟩, .inr rfl⟩
    · show t.c_total = openedCostSum _
      rw [hc]
      exact (congrArg List.sum (map_snd_updateA t.trucks tid
        (fun led =>
          { led with
            used_q := led.used_q + q,
            used_q_cold := led.used_q_cold + qc,
            used_w := led.used_w + w,
            used_v_eff := led.used_v_eff + v })
        (fun led => led.fixed_cost) (fun b => rfl))).symm
    · show t.sum_q + q = placedSumBy (fun rec => rec.q) _
      rw [hq]
      simp [placedSumBy, List.map_append]
    · show t.sum_v_eff + v = placedSumBy (fun rec => rec.v_eff) _
      rw [hv]
      simp [placedSumBy, List.map_append]
    · show t.sum_w + w = placedSumBy (fun rec => rec.w) _
      rw [hw]
      simp [placedSumBy, List.map_append]
  | false =>
    have hx : applyEvent t (.assignT oid tid q qc w v vip dm dl cd) = t := by
      simp only [applyEvent, DayTracker.on_assign]
      rw [if_pos htid]
    rw [hx]
    exact ⟨⟨hc, hq, hv, hw⟩, .inl rfl⟩

/-- An `on_failure` call preserves the day-total identities (when the
failing id holds no placed ledger entry), keeps lookups under other
ids, and leaves every entry under a watched id not placed. -/
theorem totals_failT (t : DayTracker) (oid : String) (vip dmis : Bool)
    (dl : Option ℚ) (r : String) (hinv : TotalsInv t)
    (hsafe : ∀ p ∈ t.orders, p.1 = oid → p.2.placed = false) :
    TotalsInv (t.on_failure oid vip dmis dl r) ∧
      (∀ o : String, o ≠ oid →
        (t.on_failure oid vip dmis dl r).orders.lookup o
          = t.orders.lookup o) ∧
      (∀ k : String, (∀ p ∈ t.orders, p.1 = k → p.2.placed = false) →
        ∀ p ∈ (t.on_failure oid vip dmis dl r).orders, p.1 = k →
          p.2.placed = false) := by
  obtain ⟨hc, hq, hv, hw⟩ := hinv
  cases hlk : t.orders.lookup oid with
  | none =>
    by_cases hd : dmis = true
    · have hx : t.on_failure oid vip dmis dl r = { t with
          orders := updateA (t.orders ++ [(oid,
            { q := 0, q_cold := 0, w := 0, v_eff := 0, is_vip := vip,
              assigned_truck_count := 0, due_met := none, delay_min := none,
              placed := false, reason := some r })]) oid
            (fun rec =>
              { rec with due_met := some false, delay_min := dl }),
          n_missed_due := t.n_missed_due + 1,
          n_missed_vip := t.n_missed_vip + (if vip then 1 else 0) } := by
        simp only [DayTracker.on_failure, hlk]
        rw [if_pos hd]
      rw [hx, updateA_append_fresh _ _ _ _ hlk]
      refine ⟨⟨hc, ?_, ?_, ?_⟩, ?_, ?_⟩
      · show t.sum_q = placedSumBy (fun rec => rec.q) _
        rw [hq]
        simp [placedSumBy, List.map_append]
      · show t.sum_v_eff = placedSumBy (fun rec => rec.v_eff) _
        rw [hv]
        simp [placedSumBy, List.map_append]
      · show t.sum_w = placedSumBy (fun rec => rec.w) _
        rw [hw]
        simp [placedSumBy, List.map_append]
      · intro o ho
        exact lookup_append_singleton_ne t.orders oid o _ ho
      · intro k hk p hp hpk
        rcases List.mem_append.mp hp with h | h
        · exact hk p h hpk
        · simp only [List.mem_singleton] at h
          subst h
          rfl
    · have hx : t.on_failure oid vip dmis dl r = { t with
          orders := t.orders ++ [(oid,
            { q := 0, q_cold := 0, w := 0, v_eff := 0, is_vip := vip,
              assigned_truck_count := 0, due_met := none, delay_min := none,
              placed := false, reason := some r })] } := by
        simp only [DayTracker.on_failure, hlk]
        rw [if_neg hd]
      rw [hx]
      refine ⟨⟨hc, ?_, ?_, ?_⟩, ?_, ?_⟩
      · show t.sum_q = placedSumBy (fun rec => rec.q) _
        rw [hq]
        simp [placedSumBy, List.map_append]
      · show t.sum_v_eff = placedSumBy (fun rec => rec.v_eff) _
        rw [hv]
        simp [placedSumBy, List.map_append]
      · show t.sum_w = placedSumBy (fun rec => rec.w) _
        rw [hw]
        simp [placedSumBy, List.map_append]
      · intro o ho
        exact lookup_append_singleton_ne t.orders oid o _ ho
      · intro k hk p hp hpk
        rcases List.mem_append.mp hp with h | h
        · exact hk p h hpk
        · simp only [List.mem_singleton] at h
          subst h
          rfl
  | some v0 =>
    by_cases hd : dmis = true
    · have hx : t.on_failure oid vip dmis dl r = { t with
          orders := updateA (updateA t.orders oid (fun rec =>
            { rec with
              placed := false, reason := some r,
              is_vip := vip || rec.is_vip })) oid
            (fun rec =>
              { rec with due_met := some false, delay_min := dl }),
          n_missed_due := t.n_missed_due + 1,
          n_missed_vip := t.n_missed_vip + (if vip then 1 else 0) } := by
        simp only [DayTracker.on_failure, hlk]
        rw [if_pos hd]
      rw [hx]
      refine ⟨⟨hc, ?_, ?_, ?_⟩, ?_, ?_⟩
      · show t.sum_q = placedSumBy (fun rec => rec.q) _
        rw [hq]
        show placedSumBy (fun rec => rec.q) t = _
        unfold placedSumBy
        rw [sum_map_updateA (updateA t.orders oid (fun rec =>
            { rec with
              placed := false, reason := some r,
              is_vip := vip || rec.is_vip })) oid
            (fun rec => { rec with due_met := some false, delay_min := dl })
            (fun rec => rec.q) (fun p hp hpk => rfl),
          sum_map_updateA t.orders oid (fun rec =>
            { rec with
              placed := false, reason := some r,
              is_vip := vip || rec.is_vip })
            (fun rec => rec.q) (fun p hp hpk => by
              simp [hsafe p hp hpk])]
      · show t.sum_v_eff = placedSumBy (fun rec => rec.v_eff) _
        rw [hv]
        show placedSumBy (fun rec => rec.v_eff) t = _
        unfold placedSumBy
        rw [sum_map_updateA (updateA t.orders oid (fun rec =>
            { rec with
              placed := false, reason := some r,
              is_vip := vip || rec.is_vip })) oid
            (fun rec => { rec with due_met := some false, delay_min := dl })
            (fun rec => rec.v_eff) (fun p hp hpk => rfl),
          sum_map_updateA t.orders oid (fun rec =>
            { rec with
              placed := false, reason := some r,
              is_vip := vip || rec.is_vip })
            (fun rec => rec.v_eff) (fun p hp hpk => by
              simp [hsafe p hp hpk])]
      · show t.sum_w = placedSumBy (fun rec => rec.w) _
        rw [hw]
        show placedSumBy (fun rec => rec.w) t = _
        unfold placedSumBy
        rw [sum_map_updateA (updateA t.orders oid (fun rec =>
            { rec with
              placed := false, reason := some r,
              is_vip := vip || rec.is_vip })) oid
            (fun rec => { rec with due_met := some false, delay_min := dl })
            (fun rec => rec.w) (fun p hp hpk => rfl),
          sum_map_updateA t.orders oid (fun rec =>
            { rec with
              placed := false, reason := some r,
              is_vip := vip || rec.is_vip })
            (fun rec => rec.w) (fun p hp hpk => by
              simp [hsafe p hp hpk])]
      · intro o ho
        rw [lookup_updateA_ne _ _ _ _ ho, lookup_updateA_ne _ _ _ _ ho]
      · intro k hk p hp hpk
        have hp' : p ∈ updateA (updateA t.orders oid (fun rec =>
            { rec with
              placed := false, reason := some r,
              is_vip := vip || rec.is_vip })) oid
            (fun rec =>
              { rec with due_met := some false, delay_min := dl }) := hp
        exact safe_updateA (updateA t.orders oid (fun rec =>
            { rec with
              placed := false, reason := some r,
              is_vip := vip || rec.is_vip })) oid
          (fun rec => { rec with due_met := some false, delay_min := dl }) k
          (safe_updateA t.orders oid (fun rec =>
              { rec with
                placed := false, reason := some r,
                is_vip := vip || rec.is_vip }) k hk (fun rec => .inl rfl))
          (fun rec => .inr rfl) p hp' hpk
    · have hx : t.on_failure oid vip dmis dl r = { t with
          orders := updateA t.orders oid (fun rec =>
            { rec with
              placed := false, reason := some r,
              is_vip := vip || rec.is_vip }) } := by
        simp only [DayTracker.on_failure, hlk]
        rw [if_neg hd]
      rw [hx]
      refine ⟨⟨hc, ?_, ?_, ?_⟩, ?_, ?_⟩
      · show t.sum_q = placedSumBy (fun rec => rec.q) _
        rw [hq]
        show placedSumBy (fun rec => rec.q) t = _
        unfold placedSumBy
        rw [sum_map_updateA t.orders oid (fun rec =>
            { rec with
              placed := false, reason := some r,
              is_vip := vip || rec.is_vip })
            (fun rec => rec.q) (fun p hp hpk => by
              simp [hsafe p hp hpk])]
      · show t.sum_v_eff = placedSumBy (fun rec => rec.v_eff) _
        rw [hv]
        show placedSumBy (fun rec => rec.v_eff) t = _
        unfold placedSumBy
        rw [sum_map_updateA t.orders oid (fun rec =>
            { rec with
              placed := false, reason := some r,
              is_vip := vip || rec.is_vip })
            (fun rec => rec.v_eff) (fun p hp hpk => by
              simp [hsafe p hp hpk])]
      · show t.sum_w = placedSumBy (fun rec => rec.w) _
        rw [hw]
        show placedSumBy (fun rec => rec.w) t = _
        unfold placedSumBy
        rw [sum_map_updateA t.orders oid (fun rec =>
            { rec with
              placed := false, reason := some r,
              is_vip := vip || rec.is_vip })
            (fun rec => rec.w) (fun p hp hpk => by
              simp [hsafe p hp hpk])]
      · intro o ho
        rw [lookup_updateA_ne _ _ _ _ ho]
      · intro k hk p hp hpk
        have hp' : p ∈ updateA t.orders oid (fun rec =>
            { rec with
              placed := false, reason := some r,
              is_vip := vip || rec.is_vip }) := hp
        exact safe_updateA _ oid _ k hk (fun rec => .inl rfl) p hp' hpk

/-- Every single call preserves `C_total = Σ fixed_cost`, with no side
condition. -/
theorem applyEvent_cost (t : DayTracker) (e : TEvent)
    (h : t.c_total = openedCostSum t) :
    (applyEvent t e).c_total = openedCostSum (applyEvent t e) := by
  match e with
  | .openT tid sp =>
    cases hlk : t.trucks.lookup tid with
    | some led =>
      have hx : applyEvent t (.openT tid sp) = t := by
        simp [applyEvent, DayTracker.open_truck, hlk]
      rw [hx]
      exact h
    | none =>
      have hx := open_truck_ok t tid sp hlk
      have ht : applyEvent t (.openT tid sp) = { t with
          trucks := t.trucks ++ [(tid,
            { is_reefer := sp.is_reefer, Q := sp.Q, Q_cold := sp.Q_cold,
              W := sp.W, fixed_cost := sp.fixed_cost,
              tau_min := sp.tau_min })],
          opened_trucks := addStr t.opened_trucks tid,
          c_total := t.c_total + sp.fixed_cost } := by
        simp only [applyEvent]
        rw [hx]
      rw [ht]
      show t.c_total + sp.fixed_cost = openedCostSum _
      rw [h]
      simp [openedCostSum, List.map_append]
  | .assignT oid tid q qc w v vip dm dl cd =>
    cases hx : t.on_assign oid tid q qc w v vip dm dl cd with
    | error m =>
      have ht : applyEvent t (.assignT oid tid q qc w v vip dm dl cd) = t := by
        simp [applyEvent, hx]
      rw [ht]
      exact h
    | ok t' =>
      have ht : applyEvent t (.assignT oid tid q qc w v vip dm dl cd) = t' := by
        simp [applyEvent, hx]
      rw [ht]
      unfold DayTracker.on_assign at hx
      cases htid : (t.trucks.lookup tid).isSome with
      | false =>
        rw [if_pos htid] at hx
        simp at hx
      | true =>
        rw [if_neg (by simp [htid])] at hx
        simp only [Except.ok.injEq] at hx
        subst hx
        show t.c_total = openedCostSum _
        rw [h]
        exact (congrArg List.sum (map_snd_updateA t.trucks tid
          (fun led =>
            { led with
              used_q := led.used_q + q,
              used_q_cold := led.used_q_cold + qc,
              used_w := led.used_w + w,
              used_v_eff := led.used_v_eff + v })
          (fun led => led.fixed_cost) (fun b => rfl))).symm
  | .failT oid vip dmis dl r =>
    have hx : applyEvent t (.failT oid vip dmis dl r)
        = t.on_failure oid vip dmis dl r := rfl
    rw [hx]
    simp only [DayTracker.on_failure]
    by_cases hd : dmis = true
    · rw [if_pos hd]
      exact h
    · rw [if_neg hd]
      exact h

theorem runEvents_cost :
    ∀ (es : List TEvent) (t : DayTracker), t.c_total = openedCostSum t →
      (runEvents t es).c_total = openedCostSum (runEvents t es)
  | [], _, h => h
  | e :: es, t, h =>
    runEvents_cost es (applyEvent t e) (applyEvent_cost t e h)

/-- The full invariant: preserved along any call sequence whose
assignment ids are pairwise distinct, never failed, and unseen by the
starting ledger, provided every watched failing id holds no placed
entry yet. -/
theorem runEvents_inv :
    ∀ (es : List TEvent) (t : DayTracker),
      (assignIds es).Nodup →
      (∀ oid ∈ assignIds es, oid ∉ failIds es) →
      AssignFresh t es → FailSafe t es → TotalsInv t →
      TotalsInv (runEvents t es)
  | [], _, _, _, _, _, hinv => hinv
  | .openT tid sp :: es, t, hnd, hdisj, hfresh, hsafe, hinv => by
    obtain ⟨hinv', hord⟩ := totals_openT t tid sp hinv
    refine runEvents_inv es (applyEvent t (.openT tid sp))
      (by rw [assignIds_cons_open] at hnd; exact hnd)
      (by
        intro o ho
        have h1 := hdisj o (by rw [assignIds_cons_open]; exact ho)
        rw [failIds_cons_open] at h1
        exact h1)
      (by
        intro o ho
        rw [hord]
        exact hfresh o (by rw [assignIds_cons_open]; exact ho))
      (by
        intro o ho p hp hpk
        rw [hord] at hp
        exact hsafe o (by rw [failIds_cons_open]; exact ho) p hp hpk)
      hinv'
  | .assignT oid tid q qc w v vip dm dl cd :: es, t, hnd, hdisj, hfresh,
      hsafe, hinv => by
    have hmem : oid ∈ assignIds (.assignT oid tid q qc w v vip dm dl cd :: es) := by
      rw [assignIds_cons_assign]
      exact List.mem_cons_self _ _
    have hfo : t.orders.lookup oid = none := hfresh oid hmem
    have hnotfail : oid ∉ failIds es := by
      have h1 := hdisj oid hmem
      rw [failIds_cons_assign] at h1
      exact h1
    have hnotassign : oid ∉ assignIds es := by
      rw [assignIds_cons_assign] at hnd
      exact (List.nodup_cons.mp hnd).1
    obtain ⟨hinv', hord⟩ :=
      totals_assignT t oid tid q qc w v vip dm dl cd hinv hfo
    refine runEvents_inv es (applyEvent t (.assignT oid tid q qc w v vip dm dl cd))
      (by rw [assignIds_cons_assign] at hnd; exact (List.nodup_cons.mp hnd).2)
      (by
        intro o ho
        have h1 := hdisj o (by
          rw [assignIds_cons_assign]
          exact List.mem_cons_of_mem _ ho)
        rw [failIds_cons_assign] at h1
        exact h1)
      (by
        intro o ho
        have hne : o ≠ oid := fun he => hnotassign (he ▸ ho)
        have h1 : t.orders.lookup o = none := hfresh o (by
          rw [assignIds_cons_assign]
          exact List.mem_cons_of_mem _ ho)
        rcases hord with hord | hord
        · rw [hord]
          exact h1
        · rw [hord, lookup_append_singleton_ne _ _ _ _ hne]
          exact h1)
      (by
        intro o ho p hp hpk
        have hofail : o ∈ failIds (.assignT oid tid q qc w v vip dm dl cd :: es) := by
          rw [failIds_cons_assign]
          exact ho
        rcases hord with hord | hord
        · rw [hord] at hp
          exact hsafe o hofail p hp hpk
        · rw [hord] at hp
          rcases List.mem_append.mp hp with h1 | h1
          · exact hsafe o hofail p h1 hpk
          · simp only [List.mem_singleton] at h1
            subst h1
            exact absurd (show oid ∈ failIds es by
              rw [show oid = o from hpk]; exact ho) hnotfail)
      hinv'
  | .failT oid vip dmis dl r :: es, t, hnd, hdisj, hfresh, hsafe, hinv => by
    have hsafe0 : ∀ p ∈ t.orders, p.1 = oid → p.2.placed = false := by
      intro p hp hpk
      refine hsafe oid ?_ p hp hpk
      rw [failIds_cons_fail]
      exact List.mem_cons_self _ _
    obtain ⟨hinv', hlk, hkeep⟩ := totals_failT t oid vip dmis dl r hinv hsafe0
    refine runEvents_inv es (applyEvent t (.failT oid vip dmis dl r))
      (by rw [assignIds_cons_fail] at hnd; exact hnd)
      (by
        intro o ho
        have h1 := hdisj o (by rw [assignIds_cons_fail]; exact ho)
        rw [failIds_cons_fail] at h1
        exact fun hc => h1 (List.mem_cons_of_mem _ hc))
      (by
        intro o ho
        have hoa : o ∈ assignIds (.failT oid vip dmis dl r :: es) := by
          rw [assignIds_cons_fail]
          exact ho
        have hne : o ≠ oid := by
          intro he
          have h1 := hdisj o hoa
          rw [failIds_cons_fail] at h1
          exact h1 (he ▸ List.mem_cons_self _ _)
        show (t.on_failure oid vip dmis dl r).orders.lookup o = none
        rw [hlk o hne]
        exact hfresh o hoa)
      (by
        intro o ho p hp hpk
        refine hkeep o ?_ p hp hpk
        intro p' hp' hpk'
        refine hsafe o ?_ p' hp' hpk'
        rw [failIds_cons_fail]
        exact List.mem_cons_of_mem _ ho)
      hinv'

/-- C7 (corrected): starting from a fresh tracker, after any sequence
of `open_truck` / `on_assign` / `on_failure` calls, `C_total` equals
the sum of `fixed_cost` over all opened trucks **unconditionally**
(raising calls mutate nothing); and **provided the assignment calls
carry pairwise distinct order ids, none of which is ever passed to
`on_failure`**, the day totals `sum_q`, `sum_v_eff`, `sum_w` equal the
sums of the corresponding quantities over the placed orders of the
ledger.  Without the proviso the sums part fails (an assigned order
later failed keeps its quantities in the day totals but is no longer
placed). -/
theorem tracker_day_totals (es : List TEvent) :
    (runEvents ({} : DayTracker) es).c_total
      = openedCostSum (runEvents ({} : DayTracker) es) ∧
    ((assignIds es).Nodup → (∀ oid ∈ assignIds es, oid ∉ failIds es) →
      TotalsInv (runEvents ({} : DayTracker) es)) :=
  ⟨runEvents_cost es {} rfl,
   fun hnd hdisj =>
     runEvents_inv es {} hnd hdisj (fun _ _ => rfl)
       (fun _ _ p hp => absurd hp (by simp)) ⟨rfl, rfl, rfl, rfl⟩⟩

/-- A dry truck's registration specs. -/
def cSpec : TruckSpecs :=
  { is_reefer := false, Q := 20, Q_cold := 0, W := 7000, fixed_cost := 380,
    tau_min := 0.75 }

/-- Open `T1`, assign `O1` (q=5, v_eff=6, w=70), then fail `O1`. -/
def cEvents : List TEvent :=
  [.openT "T1" cSpec,
   .assignT "O1" "T1" 5 0 70 6 false none none false,
   .failT "O1" false false none "no_split"]

/-- C7 counterexample: after assigning `O1` and then failing it, the
day total `sum_q` still carries the assigned quantity (5), while the
sum of `q` over placed orders is 0 — the claimed identity for the day
sums fails.  `C_total` still matches the opened trucks' fixed costs. -/
theorem assign_then_failure_breaks_sums :
    (runEvents ({} : DayTracker) cEvents).sum_q = 5 ∧
    placedSumBy (fun rec => rec.q) (runEvents ({} : DayTracker) cEvents) = 0 ∧
    (runEvents ({} : DayTracker) cEvents).c_total
      = openedCostSum (runEvents ({} : DayTracker) cEvents) := by
  refine ⟨?_, ?_, ?_⟩ <;>
    norm_num [runEvents, cEvents, cSpec, applyEvent, DayTracker.open_truck,
      DayTracker.on_assign, DayTracker.on_failure, updateA, addStr, addPair,
      placedSumBy, openedCostSum, List.lookup, List.foldl]

/-- Open `T1` and assign the single order `O1`. -/
def wEvents : List TEvent :=
  [.openT "T1" cSpec,
   .assignT "O1" "T1" 5 0 70 6 false none none false]

/-- C7 witness: one opened truck and one assigned, never-failed order
satisfy all four day-total identities. -/
theorem tracker_day_totals_witness :
    (runEvents ({} : DayTracker) wEvents).c_total
      = openedCostSum (runEvents ({} : DayTracker) wEvents) ∧
    TotalsInv (runEvents ({} : DayTracker) wEvents) :=
  ⟨(tracker_day_totals wEvents).1,
   (tracker_day_totals wEvents).2 (by decide) (by decide)⟩

/-! ### C8 — order ranking: output position versus strict key order -/

/-- The keyed rows `rank_orders` sorts, before rank enumeration. -/
def orderRows (scheme : List OrderDim) (feats : List OrderSelFeat) :
    List (OrderSelFeat × List KeyPart) :=
  (feats.map (fun f => (f, make_sort_key scheme f))).insertionSort keyedLe

/-- When the scheme contains `order_id`, the sort key determines the
order id. -/
theorem make_sort_key_inj :
    ∀ (scheme : List OrderDim) (f₁ f₂ : OrderSelFeat),
      OrderDim.order_id ∈ scheme →
      make_sort_key scheme f₁ = make_sort_key scheme f₂ →
      f₁.order_id = f₂.order_id
  | [], _, _, hmem, _ => absurd hmem (by simp)
  | d :: ds, f₁, f₂, hmem, heq => by
    simp only [make_sort_key, List.map_cons, List.cons.injEq] at heq
    rcases List.mem_cons.mp hmem with hd | hd
    · subst hd
      exact KeyPart.ks.inj heq.1
    · exact make_sort_key_inj ds f₁ f₂ hd heq.2

theorem rank_orders_length (scheme : List OrderDim)
    (feats : List OrderSelFeat) :
    (rank_orders scheme feats).length = (orderRows scheme feats).length := by
  simp [rank_orders, orderRows, List.enum_length]

theorem rank_orders_sort_key (scheme : List OrderDim)
    (feats : List OrderSelFeat) (i : Nat)
    (hi : i < (rank_orders scheme feats).length)
    (hi' : i < (orderRows scheme feats).length) :
    ((rank_orders scheme feats).get ⟨i, hi⟩).sort_key
      = ((orderRows scheme feats).get ⟨i, hi'⟩).2 := by
  simp [rank_orders, orderRows, List.get_eq_getElem, List.getElem_map,
    List.getElem_enum]

/-- Position in the sorted keyed rows is equivalent to strict key
order, given `order_id ∈ scheme` and duplicate-free ids. -/
theorem orderRows_lt_iff (scheme : List OrderDim) (feats : List OrderSelFeat)
    (hid : OrderDim.order_id ∈ scheme)
    (hnd : (feats.map OrderSelFeat.order_id).Nodup)
    (i j : Nat) (hi : i < (orderRows scheme feats).length)
    (hj : j < (orderRows scheme feats).length) :
    i < j ↔ lexLtB KeyPart.ltb ((orderRows scheme feats).get ⟨i, hi⟩).2
        ((orderRows scheme feats).get ⟨j, hj⟩).2 = true := by
  have hsorted : List.Sorted keyedLe (orderRows scheme feats) :=
    List.sorted_insertionSort keyedLe _
  have hperm : List.Perm (orderRows scheme feats)
      (feats.map (fun f => (f, make_sort_key scheme f))) :=
    List.perm_insertionSort keyedLe _
  have hform : ∀ p ∈ orderRows scheme feats,
      p.2 = make_sort_key scheme p.1 := by
    intro p hp
    obtain ⟨g, _, hg⟩ := List.mem_map.mp (hperm.mem_iff.mp hp)
    rw [← hg]
  have hndids : ((orderRows scheme feats).map
      (fun p => p.1.order_id)).Nodup := by
    refine ((hperm.map (fun p => p.1.order_id)).nodup_iff).mpr ?_
    simpa [List.map_map, Function.comp] using hnd
  have hstrict : ∀ (a b : Nat) (ha : a < (orderRows scheme feats).length)
      (hb : b < (orderRows scheme feats).length), a < b →
      lexLtB KeyPart.ltb ((orderRows scheme feats).get ⟨a, ha⟩).2
        ((orderRows scheme feats).get ⟨b, hb⟩).2 = true := by
    intro a b ha hb hab
    have hle : keyedLe ((orderRows scheme feats).get ⟨a, ha⟩)
        ((orderRows scheme feats).get ⟨b, hb⟩) :=
      hsorted.rel_get_of_lt
        (show (⟨a, ha⟩ : Fin (orderRows scheme feats).length) < ⟨b, hb⟩
          from hab)
    by_cases hx : lexLtB KeyPart.ltb ((orderRows scheme feats).get ⟨a, ha⟩).2
        ((orderRows scheme feats).get ⟨b, hb⟩).2 = true
    · exact hx
    · exfalso
      have hkeys : ((orderRows scheme feats).get ⟨a, ha⟩).2
          = ((orderRows scheme feats).get ⟨b, hb⟩).2 :=
        lexLtB_eq_of_not KeyPart.ltb KeyPart.ltb_conn _ _
          (by simpa using hx) hle
      have hids : ((orderRows scheme feats).get ⟨a, ha⟩).1.order_id
          = ((orderRows scheme feats).get ⟨b, hb⟩).1.order_id := by
        refine make_sort_key_inj scheme _ _ hid ?_
        rw [← hform _ (List.get_mem _ _ _), ← hform _ (List.get_mem _ _ _),
          hkeys]
      have hinj := List.nodup_iff_injective_get.mp hndids
      have ha' : a < ((orderRows scheme feats).map
          (fun p => p.1.order_id)).length := by simpa using ha
      have hb' : b < ((orderRows scheme feats).map
          (fun p => p.1.order_id)).length := by simpa using hb
      have hgets : ((orderRows scheme feats).map
            (fun p => p.1.order_id)).get ⟨a, ha'⟩
          = ((orderRows scheme feats).map
            (fun p => p.1.order_id)).get ⟨b, hb'⟩ := by
        simpa [List.get_eq_getElem, List.getElem_map] using hids
      have := hinj hgets
      simp only [Fin.mk.injEq] at this
      omega
  constructor
  · exact hstrict i j hi hj
  · intro h
    rcases lt_trichotomy i j with hij | hij | hij
    · exact hij
    · subst hij
      rw [lexLtB_irrefl KeyPart.ltb KeyPart.ltb_asymm] at h
      simp at h
    · exfalso
      have hji := hstrict j i hj hi hij
      have := lexLtB_asymm KeyPart.ltb KeyPart.ltb_asymm _ _ hji
      rw [h] at this
      simp at this

/-- C8 (amended): `rank_orders` sorts by the lexicographic tuple with
the fixed directions, and — **provided the configured scheme contains
the `order_id` dimension and the ranked orders carry pairwise distinct
ids** — a ranked order precedes another in the output iff its sort key
is strictly smaller.  Without that proviso the equivalence fails: a
scheme omitting `order_id` can key two orders identically, and the
stable sort then preserves their input order while neither key is
strictly below the other. -/
theorem rank_orders_precedes_iff_key_lt (scheme : List OrderDim)
    (feats : List OrderSelFeat)
    (hid : OrderDim.order_id ∈ scheme)
    (hnd : (feats.map OrderSelFeat.order_id).Nodup)
    (i j : Nat) (hi : i < (rank_orders scheme feats).length)
    (hj : j < (rank_orders scheme feats).length) :
    i < j ↔ lexLtB KeyPart.ltb
        ((rank_orders scheme feats).get ⟨i, hi⟩).sort_key
        ((rank_orders scheme feats).get ⟨j, hj⟩).sort_key = true := by
  have hi' : i < (orderRows scheme feats).length := by
    rw [← rank_orders_length]; exact hi
  have hj' : j < (orderRows scheme feats).length := by
    rw [← rank_orders_length]; exact hj
  rw [rank_orders_sort_key scheme feats i hi hi',
    rank_orders_sort_key scheme feats j hj hj']
  exact orderRows_lt_iff scheme feats hid hnd i j hi' hj'

/-- Two non-VIP orders with distinct ids but identical features. -/
def featO1 : OrderSelFeat :=
  { order_id := "O1", vip := false, due := 600, alpha := 0, v_eff := 1,
    weight := 1 }

def featO2 : OrderSelFeat := { featO1 with order_id := "O2" }

/-- C8 counterexample: under the validated scheme `("vip",)` the two
orders receive identical sort keys; `"O1"` precedes `"O2"` in the
output (stable sort preserves input order), yet its key is **not**
strictly smaller — the claimed equivalence fails for schemes that omit
`order_id`. -/
theorem rank_orders_equal_keys_not_lt :
    ((rank_orders [OrderDim.vip] [featO1, featO2]).map
        (fun r => (r.rank, r.order_id)))
      = [(1, "O1"), (2, "O2")] ∧
    make_sort_key [OrderDim.vip] featO1
      = make_sort_key [OrderDim.vip] featO2 ∧
    lexLtB KeyPart.ltb (make_sort_key [OrderDim.vip] featO1)
      (make_sort_key [OrderDim.vip] featO2) = false := by
  refine ⟨?_, rfl, rfl⟩
  norm_num [rank_orders, make_sort_key, featO1, featO2,
    List.insertionSort, List.orderedInsert, keyedLe, lexLtB, KeyPart.ltb,
    List.enum, List.enumFrom]

theorem w8_len₀ :
    0 < (rank_orders [OrderDim.vip, OrderDim.order_id]
      [featO1, featO2]).length := by
  norm_num [rank_orders, make_sort_key, featO1, featO2,
    List.insertionSort, List.orderedInsert, keyedLe, lexLtB, KeyPart.ltb,
    List.enum, List.enumFrom]

theorem w8_len₁ :
    1 < (rank_orders [OrderDim.vip, OrderDim.order_id]
      [featO1, featO2]).length := by
  norm_num [rank_orders, make_sort_key, featO1, featO2,
    List.insertionSort, List.orderedInsert, keyedLe, lexLtB, KeyPart.ltb,
    List.enum, List.enumFrom]

/-- C8 witness: with `order_id` in the scheme and distinct ids, the
first ranked order's key is strictly below the second's. -/
theorem rank_orders_precedes_iff_key_lt_witness :
    OrderDim.order_id ∈ [OrderDim.vip, OrderDim.order_id] ∧
    (List.map OrderSelFeat.order_id [featO1, featO2]).Nodup ∧
    ((0 : Nat) < 1 ↔ lexLtB KeyPart.ltb
        ((rank_orders [OrderDim.vip, OrderDim.order_id]
          [featO1, featO2]).get ⟨0, w8_len₀⟩).sort_key
        ((rank_orders [OrderDim.vip, OrderDim.order_id]
          [featO1, featO2]).get ⟨1, w8_len₁⟩).sort_key = true) :=
  ⟨by simp, by simp [featO1, featO2],
    rank_orders_precedes_iff_key_lt [OrderDim.vip, OrderDim.order_id]
      [featO1, featO2] (by simp) (by simp [featO1, featO2]) 0 1
      w8_len₀ w8_len₁⟩

end Grocery
